import Mathlib

/-
  Verification development for the ChampSim-DPC4 prefetcher family.

  Shallow embedding of two components:
  * the bandwidth-aware Transformer/Pythia selector
    (transformer_pythia_selector_bw.h / transformer_pythia_selector_bw.cc), and
  * the Transformer-aware stream prefetcher (transformer_stream.cc).

  Modelling conventions:
  * C++ `long`/`int` quantities are modelled as `Int`, unsigned counters as `Nat`.
  * Block numbers (champsim::block_number, a uint64 wrapper) are modelled as `Int`
    with exact arithmetic; `champsim::offset a b` is the signed difference `b - a`.
    None of the verified claims exercises 64-bit wraparound.
  * C++ `double` arithmetic in the selector (ratios of integer counters, integer
    bandwidth / 16.0) is modelled exactly over `ℚ`; the only double computation
    that is not exactly representable (the `std::log`-based policy scores) is
    modelled by oracle booleans giving the outcome of the two score comparisons.
  * Host callbacks (MSHR occupancy ratio, prefetch_line success, the metadata
    returned by the two underlying prefetchers, DRAM bandwidth) are external
    inputs, modelled as explicit oracle arguments.
  * Fixed-size C++ arrays are modelled as total functions `Nat → α` updated
    pointwise; every array access in the source is index-guarded exactly as the
    source guards it.
-/

/-! ### Selector: metadata tagging (transformer_pythia_selector_bw.h) -/

def METADATA_TRANSFORMER_BIT : Nat := 2 ^ 30

def METADATA_PYTHIA_BIT : Nat := 2 ^ 31

def METADATA_SOURCE_MASK : Nat := METADATA_TRANSFORMER_BIT ||| METADATA_PYTHIA_BIT

/-- `~METADATA_SOURCE_MASK` on a 32-bit word. -/
def METADATA_PRESERVE_MASK : Nat := METADATA_SOURCE_MASK ^^^ 0xFFFFFFFF

def tag_metadata_transformer (m : Nat) : Nat :=
  (m &&& METADATA_PRESERVE_MASK) ||| METADATA_TRANSFORMER_BIT

def tag_metadata_pythia (m : Nat) : Nat :=
  (m &&& METADATA_PRESERVE_MASK) ||| METADATA_PYTHIA_BIT

/-! ### Selector: set sampling (transformer_pythia_selector_bw.h, lines 64-78) -/

/-- `get_set_sample_rate` as written in the source: note that `NUM_SET ≥ 1024`
falls through the first test and is caught by the `NUM_SET >= 64` branch. -/
def get_set_sample_rate (NUM_SET : Int) : Int :=
  if NUM_SET < 1024 ∧ NUM_SET ≥ 256 then 16
  else if NUM_SET ≥ 64 then 8
  else if NUM_SET ≥ 8 then 4
  else 32

/-- Modelled from the spec: "Sample rate depends on `NUM_SET`: ≥1024 → 32;
256..1023 → 16; 64..255 → 8; 8..63 → 4; else 32."  Used only to compare the
spec's sentence with the source function. -/
def sample_rate_spec (NUM_SET : Int) : Int :=
  if NUM_SET ≥ 1024 then 32
  else if NUM_SET ≥ 256 then 16
  else if NUM_SET ≥ 64 then 8
  else if NUM_SET ≥ 8 then 4
  else 32

/-- Claim C1 (counterexample): at `NUM_SET = 1024` the source returns a sample
rate of 8, while the claimed table demands 32.  The claim as stated is false. -/
theorem C1_counterexample :
    get_set_sample_rate 1024 = 8 ∧ sample_rate_spec 1024 = 32 ∧
      get_set_sample_rate 1024 ≠ sample_rate_spec 1024 := by
  refine ⟨by decide, by decide, by decide⟩

/-- Claim C1 (amended): the selector's set sample rate is 16 when
`256 ≤ NUM_SET ≤ 1023`, 8 when `NUM_SET ≥ 1024` (the `≥ 64` branch catches
these geometries) as well as when `64 ≤ NUM_SET ≤ 255`, 4 when
`8 ≤ NUM_SET ≤ 63`, and 32 when `NUM_SET < 8`. -/
theorem C1_amended_sample_rate (NUM_SET : Int) :
    (NUM_SET ≥ 1024 → get_set_sample_rate NUM_SET = 8) ∧
    (256 ≤ NUM_SET ∧ NUM_SET ≤ 1023 → get_set_sample_rate NUM_SET = 16) ∧
    (64 ≤ NUM_SET ∧ NUM_SET ≤ 255 → get_set_sample_rate NUM_SET = 8) ∧
    (8 ≤ NUM_SET ∧ NUM_SET ≤ 63 → get_set_sample_rate NUM_SET = 4) ∧
    (NUM_SET < 8 → get_set_sample_rate NUM_SET = 32) := by
  unfold get_set_sample_rate
  refine ⟨fun h => ?_, fun h => ?_, fun h => ?_, fun h => ?_, fun h => ?_⟩ <;>
    split_ifs <;> omega

theorem C1_amended_sample_rate_witness : get_set_sample_rate 2048 = 8 :=
  (C1_amended_sample_rate 2048).1 (by decide)

/-- Claim C7: tagging a 32-bit metadata word by either source preserves the low
30 bits and leaves exactly one of bit 30 (Transformer) and bit 31 (Pythia) set. -/
theorem C7_metadata_tagging (m : Nat) (hm : m < 2 ^ 32) :
    (tag_metadata_transformer m &&& 0x3FFFFFFF = m &&& 0x3FFFFFFF ∧
      (tag_metadata_transformer m).testBit 30 = true ∧
      (tag_metadata_transformer m).testBit 31 = false) ∧
    (tag_metadata_pythia m &&& 0x3FFFFFFF = m &&& 0x3FFFFFFF ∧
      (tag_metadata_pythia m).testBit 31 = true ∧
      (tag_metadata_pythia m).testBit 30 = false) := by
  have hmask : METADATA_PRESERVE_MASK = 2 ^ 30 - 1 := by decide
  have hlow : (0x3FFFFFFF : Nat) = 2 ^ 30 - 1 := by decide
  constructor
  · refine ⟨?_, ?_, ?_⟩
    · apply Nat.eq_of_testBit_eq
      intro i
      simp only [tag_metadata_transformer, METADATA_TRANSFORMER_BIT, hmask, hlow,
        Nat.testBit_and, Nat.testBit_or, Nat.testBit_two_pow,
        Nat.testBit_two_pow_sub_one]
      by_cases hi : i < 30
      · have : ¬ (30 = i) := by omega
        simp [hi, this]
      · simp [hi]
    · have hb : METADATA_TRANSFORMER_BIT.testBit 30 = true := by decide
      simp only [tag_metadata_transformer, Nat.testBit_or, hb, Bool.or_true]
    · simp only [tag_metadata_transformer, METADATA_TRANSFORMER_BIT, hmask,
        Nat.testBit_or, Nat.testBit_and, Nat.testBit_two_pow,
        Nat.testBit_two_pow_sub_one]
      simp
  · refine ⟨?_, ?_, ?_⟩
    · apply Nat.eq_of_testBit_eq
      intro i
      simp only [tag_metadata_pythia, METADATA_PYTHIA_BIT, hmask, hlow,
        Nat.testBit_and, Nat.testBit_or, Nat.testBit_two_pow,
        Nat.testBit_two_pow_sub_one]
      by_cases hi : i < 30
      · have : ¬ (31 = i) := by omega
        simp [hi, this]
      · simp [hi]
    · have hb : METADATA_PYTHIA_BIT.testBit 31 = true := by decide
      simp only [tag_metadata_pythia, Nat.testBit_or, hb, Bool.or_true]
    · simp only [tag_metadata_pythia, METADATA_PYTHIA_BIT, hmask,
        Nat.testBit_or, Nat.testBit_and, Nat.testBit_two_pow,
        Nat.testBit_two_pow_sub_one]
      simp

/-! ### Selector: state (transformer_pythia_selector_bw.h) -/

structure SamplerEntry where
  transformer_useful : Nat := 0
  transformer_issued : Nat := 0
  pythia_useful : Nat := 0
  pythia_issued : Nat := 0
deriving DecidableEq

structure SelectorState where
  NUM_SET : Int
  NUM_WAY : Int
  samplers : List SamplerEntry
  dedicated_stats : SamplerEntry := {}
  policy_selector : Int := 0
  prefetch_allowed_count : Nat := 0
  prefetch_throttled_count : Nat := 0
  high_bw_events : Nat := 0
  low_accuracy_events : Nat := 0
  transformer_selected_count : Nat := 0
  pythia_selected_count : Nat := 0
  sampler_transformer_wins : Nat := 0
  sampler_pythia_wins : Nat := 0
  cycles : Nat := 0
deriving DecidableEq

def POLICY_MAX : Int := 1024

def POLICY_MIN : Int := -1024

/-- 0.9, exactly representable; written with `mkRat` so that concrete selector
runs evaluate inside the kernel. -/
def BW_UTIL_THRESHOLD : ℚ := mkRat 9 10

/-- 0.1 (the double constant `0.1` denotes the same decimal in the source). -/
def MIN_ACCURACY_THRESHOLD : ℚ := mkRat 1 10

/-- Host constant: 64-byte cache blocks (ChampSim `LOG2_BLOCK_SIZE`). -/
def LOG2_BLOCK_SIZE : Nat := 6

/-- `champsim::lg2` (floor base-2 logarithm), written with structural fuel
recursion so that it evaluates inside the kernel; 64 division steps cover
every 64-bit input. -/
def champsim_lg2_fuel : Nat → Nat → Nat
  | 0, _ => 0
  | fuel + 1, n => if n < 2 then 0 else champsim_lg2_fuel fuel (n / 2) + 1

def champsim_lg2 (n : Nat) : Nat := champsim_lg2_fuel 64 n

/-- `get_set_sample_category`: set indices are non-negative, so the C++ `long`
arithmetic agrees with `Nat` arithmetic (the subtrahend is at most `m < r`). -/
def get_set_sample_category (NUM_SET : Int) (set : Nat) : Nat :=
  let r := (get_set_sample_rate NUM_SET).toNat
  let m := r - 1
  (r + (set &&& m) - ((set >>> champsim_lg2 r) &&& m)) &&& m

def get_num_sampled_sets (NUM_SET : Int) : Int := NUM_SET / get_set_sample_rate NUM_SET

def is_sampler_set (NUM_SET : Int) (s : Nat) : Bool :=
  get_set_sample_category NUM_SET s == 0

def is_transformer_dedicated_set (NUM_SET : Int) (s : Nat) : Bool :=
  get_set_sample_category NUM_SET s == 1

def is_pythia_dedicated_set (NUM_SET : Int) (s : Nat) : Bool :=
  get_set_sample_category NUM_SET s == 2

def use_transformer_for_set (NUM_SET policy : Int) (s : Nat) : Bool :=
  if is_transformer_dedicated_set NUM_SET s then true
  else if is_pythia_dedicated_set NUM_SET s || is_sampler_set NUM_SET s then
    get_set_sample_category NUM_SET s != 2
  else policy ≥ 0

/-- `prefetcher_initialize`: the two underlying prefetchers are constructed and
initialised here as well; their state is modelled separately. -/
def selector_init (num_set num_way : Int) : SelectorState :=
  { NUM_SET := num_set, NUM_WAY := num_way,
    samplers := List.replicate (get_num_sampled_sets num_set).toNat {} }

def get_bandwidth_utilization (dram_bw : Nat) : ℚ := mkRat dram_bw 16

def get_prefetch_accuracy (st : SelectorState) : ℚ :=
  let useful0 := st.dedicated_stats.transformer_useful + st.dedicated_stats.pythia_useful
  let issued0 := st.dedicated_stats.transformer_issued + st.dedicated_stats.pythia_issued
  let useful := st.samplers.foldl (fun a s => a + s.transformer_useful + s.pythia_useful) useful0
  let issued := st.samplers.foldl (fun a s => a + s.transformer_issued + s.pythia_issued) issued0
  if issued = 0 then 1 else mkRat useful issued

def should_allow_prefetch (dram_bw : Nat) (st : SelectorState) : Bool × SelectorState :=
  let bw := get_bandwidth_utilization dram_bw
  let acc := get_prefetch_accuracy st
  let bw_ok := decide (bw < BW_UTIL_THRESHOLD)
  let acc_ok := decide (acc > bw) || decide (acc > MIN_ACCURACY_THRESHOLD)
  let st1 := if bw_ok then st else { st with high_bw_events := st.high_bw_events + 1 }
  let st2 := if acc_ok then st1 else { st1 with low_accuracy_events := st1.low_accuracy_events + 1 }
  let allow := bw_ok && acc_ok
  let st3 :=
    if allow then { st2 with prefetch_allowed_count := st2.prefetch_allowed_count + 1 }
    else { st2 with prefetch_throttled_count := st2.prefetch_throttled_count + 1 }
  (allow, st3)

/-- The `useful_prefetch && cache_hit` block at the top of
`prefetcher_cache_operate` (transformer_pythia_selector_bw.cc, lines 69-76).
Note: in sampler sets the source increments `transformer_useful`
unconditionally; the metadata word is not consulted. -/
def selector_credit_useful (st : SelectorState) (set : Nat) : SelectorState :=
  if is_sampler_set st.NUM_SET set then
    let idx := set / (get_set_sample_rate st.NUM_SET).toNat
    if idx < st.samplers.length then
      let e := st.samplers.getD idx {}
      { st with samplers :=
          st.samplers.set idx { e with transformer_useful := e.transformer_useful + 1 } }
    else st
  else if is_transformer_dedicated_set st.NUM_SET set then
    { st with dedicated_stats :=
        { st.dedicated_stats with
            transformer_useful := st.dedicated_stats.transformer_useful + 1 } }
  else if is_pythia_dedicated_set st.NUM_SET set then
    { st with dedicated_stats :=
        { st.dedicated_stats with pythia_useful := st.dedicated_stats.pythia_useful + 1 } }
  else if st.policy_selector ≥ 0 then
    { st with dedicated_stats :=
        { st.dedicated_stats with
            transformer_useful := st.dedicated_stats.transformer_useful + 1 } }
  else
    { st with dedicated_stats :=
        { st.dedicated_stats with pythia_useful := st.dedicated_stats.pythia_useful + 1 } }

inductive PFSource where
  | transformer
  | pythia
deriving DecidableEq

structure OperateOut where
  st : SelectorState
  meta : Nat
  invoked : Option PFSource

/-- `prefetcher_cache_operate` of the selector.  `t_meta` / `p_meta` are the
metadata words returned by the underlying Transformer / Pythia prefetcher when
it is invoked (external oracles); `dram_bw` is the host's `get_dram_bw()`. -/
def selector_cache_operate (dram_bw t_meta p_meta addr : Nat)
    (cache_hit useful_prefetch : Bool) (metadata_in : Nat)
    (st : SelectorState) : OperateOut :=
  let set := (addr >>> LOG2_BLOCK_SIZE) &&& (st.NUM_SET - 1).toNat
  let st1 := if useful_prefetch && cache_hit then selector_credit_useful st set else st
  let pr := should_allow_prefetch dram_bw st1
  if !pr.1 then ⟨pr.2, metadata_in, none⟩
  else if is_sampler_set pr.2.NUM_SET set || use_transformer_for_set pr.2.NUM_SET pr.2.policy_selector set then
    ⟨{ pr.2 with transformer_selected_count := pr.2.transformer_selected_count + 1 },
      tag_metadata_transformer t_meta, some .transformer⟩
  else
    ⟨{ pr.2 with pythia_selected_count := pr.2.pythia_selected_count + 1 },
      tag_metadata_pythia p_meta, some .pythia⟩

/-- `prefetcher_cache_fill` of the selector (lines 89-103).  The fill is also
forwarded to both underlying prefetchers, which does not change selector
state.  Note: in sampler sets the source increments `transformer_issued`
unconditionally; the fill's metadata word is not consulted. -/
def selector_cache_fill (set : Nat) (prefetch : Bool) (metadata_in : Nat)
    (st : SelectorState) : SelectorState × Nat :=
  let st1 :=
    if prefetch then
      if is_sampler_set st.NUM_SET set then
        let idx := set / (get_set_sample_rate st.NUM_SET).toNat
        if idx < st.samplers.length then
          let e := st.samplers.getD idx {}
          { st with samplers :=
              st.samplers.set idx { e with transformer_issued := e.transformer_issued + 1 } }
        else st
      else if is_transformer_dedicated_set st.NUM_SET set then
        { st with dedicated_stats :=
            { st.dedicated_stats with
                transformer_issued := st.dedicated_stats.transformer_issued + 1 } }
      else if is_pythia_dedicated_set st.NUM_SET set then
        { st with dedicated_stats :=
            { st.dedicated_stats with
                pythia_issued := st.dedicated_stats.pythia_issued + 1 } }
      else if st.policy_selector ≥ 0 then
        { st with dedicated_stats :=
            { st.dedicated_stats with
                transformer_issued := st.dedicated_stats.transformer_issued + 1 } }
      else
        { st with dedicated_stats :=
            { st.dedicated_stats with
                pythia_issued := st.dedicated_stats.pythia_issued + 1 } }
    else st
  (st1, metadata_in)

/-- `update_policy_selector`.  The two score comparisons are computed on C++
doubles through `std::log`; they are modelled as oracle booleans
(`t_gt` ⟺ `transformer_score > pythia_score * 1.05`,
`p_gt` ⟺ `pythia_score > transformer_score * 1.05`). -/
def update_policy_selector (t_gt p_gt : Bool) (st : SelectorState) : SelectorState :=
  let t_i := st.samplers.foldl (fun a s => a + s.transformer_issued) st.dedicated_stats.transformer_issued
  let p_i := st.samplers.foldl (fun a s => a + s.pythia_issued) st.dedicated_stats.pythia_issued
  if t_i < 100 ∨ p_i < 100 then st
  else if t_gt then
    { st with policy_selector := min (st.policy_selector + 1) POLICY_MAX,
              sampler_transformer_wins := st.sampler_transformer_wins + 1 }
  else if p_gt then
    { st with policy_selector := max (st.policy_selector - 1) POLICY_MIN,
              sampler_pythia_wins := st.sampler_pythia_wins + 1 }
  else st

/-- `prefetcher_cycle_operate`: the function-static `cycles` counter is a state
field; every 5000 cycles the policy update runs. -/
def selector_cycle_operate (t_gt p_gt : Bool) (st : SelectorState) : SelectorState :=
  let st1 := { st with cycles := st.cycles + 1 }
  if st1.cycles % 5000 = 0 then update_policy_selector t_gt p_gt st1 else st1

/-- Selector states reachable through the host interface. -/
inductive SelReach : SelectorState → Prop where
  | init (num_set num_way : Int) : SelReach (selector_init num_set num_way)
  | operate {s} (h : SelReach s) (dram t_meta p_meta addr : Nat) (hit up : Bool)
      (meta : Nat) : SelReach (selector_cache_operate dram t_meta p_meta addr hit up meta s).st
  | fill {s} (h : SelReach s) (set : Nat) (p : Bool) (meta : Nat) :
      SelReach (selector_cache_fill set p meta s).1
  | cycle {s} (h : SelReach s) (t_gt p_gt : Bool) :
      SelReach (selector_cycle_operate t_gt p_gt s)

/-! ### Selector: policy-counter lemmas -/

theorem credit_policy_eq (st : SelectorState) (set : Nat) :
    (selector_credit_useful st set).policy_selector = st.policy_selector := by
  simp only [selector_credit_useful]
  split_ifs <;> rfl

theorem should_allow_policy_eq (d : Nat) (st : SelectorState) :
    (should_allow_prefetch d st).2.policy_selector = st.policy_selector := by
  simp only [should_allow_prefetch]
  split_ifs <;> rfl

theorem operate_policy_eq (d tm pm a : Nat) (hit up : Bool) (m : Nat) (st : SelectorState) :
    (selector_cache_operate d tm pm a hit up m st).st.policy_selector = st.policy_selector := by
  simp only [selector_cache_operate]
  split_ifs <;> simp [OperateOut.st, should_allow_policy_eq, credit_policy_eq]

theorem fill_policy_eq (set : Nat) (p : Bool) (m : Nat) (st : SelectorState) :
    (selector_cache_fill set p m st).1.policy_selector = st.policy_selector := by
  simp only [selector_cache_fill]
  split_ifs <;> rfl

theorem update_policy_spec (t_gt p_gt : Bool) (st : SelectorState) :
    (update_policy_selector t_gt p_gt st).policy_selector = st.policy_selector ∨
    (update_policy_selector t_gt p_gt st).policy_selector = min (st.policy_selector + 1) POLICY_MAX ∨
    (update_policy_selector t_gt p_gt st).policy_selector = max (st.policy_selector - 1) POLICY_MIN := by
  simp only [update_policy_selector]
  split_ifs <;> simp

theorem update_policy_bounds (t_gt p_gt : Bool) (st : SelectorState)
    (h1 : POLICY_MIN ≤ st.policy_selector) (h2 : st.policy_selector ≤ POLICY_MAX) :
    POLICY_MIN ≤ (update_policy_selector t_gt p_gt st).policy_selector ∧
      (update_policy_selector t_gt p_gt st).policy_selector ≤ POLICY_MAX := by
  rcases update_policy_spec t_gt p_gt st with h | h | h <;>
    rw [h] <;> simp only [POLICY_MIN, POLICY_MAX] at * <;> omega

theorem cycle_policy_bounds (t_gt p_gt : Bool) (st : SelectorState)
    (h1 : POLICY_MIN ≤ st.policy_selector) (h2 : st.policy_selector ≤ POLICY_MAX) :
    POLICY_MIN ≤ (selector_cycle_operate t_gt p_gt st).policy_selector ∧
      (selector_cycle_operate t_gt p_gt st).policy_selector ≤ POLICY_MAX := by
  simp only [selector_cycle_operate]
  split_ifs
  · exact update_policy_bounds t_gt p_gt _ h1 h2
  · exact ⟨h1, h2⟩

/-- Claim C9: the policy counter starts at 0, stays within
`[POLICY_MIN, POLICY_MAX] = [-1024, 1024]` across every host operation, and
each policy update moves it by at most 1, saturating at the bounds. -/
theorem C9_policy_counter :
    (∀ num_set num_way : Int, (selector_init num_set num_way).policy_selector = 0) ∧
    (∀ s, SelReach s →
      POLICY_MIN ≤ s.policy_selector ∧ s.policy_selector ≤ POLICY_MAX) ∧
    (∀ (t_gt p_gt : Bool) (s : SelectorState),
      POLICY_MIN ≤ s.policy_selector → s.policy_selector ≤ POLICY_MAX →
        (update_policy_selector t_gt p_gt s).policy_selector - s.policy_selector ≤ 1 ∧
        s.policy_selector - (update_policy_selector t_gt p_gt s).policy_selector ≤ 1 ∧
        POLICY_MIN ≤ (update_policy_selector t_gt p_gt s).policy_selector ∧
        (update_policy_selector t_gt p_gt s).policy_selector ≤ POLICY_MAX) := by
  refine ⟨fun _ _ => rfl, fun s h => ?_, fun t_gt p_gt s h1 h2 => ?_⟩
  · induction h with
    | init n w => simp [selector_init, POLICY_MIN, POLICY_MAX]
    | operate h d tm pm a hit up m ih => rw [operate_policy_eq]; exact ih
    | fill h set p m ih => rw [fill_policy_eq]; exact ih
    | cycle h t p ih => exact cycle_policy_bounds t p _ ih.1 ih.2
  · have hmin : POLICY_MIN = -1024 := rfl
    have hmax : POLICY_MAX = 1024 := rfl
    refine ⟨?_, ?_, ?_, ?_⟩ <;>
      rcases update_policy_spec t_gt p_gt s with h | h | h <;> rw [h] <;> omega

theorem C9_policy_counter_witness :
    POLICY_MIN ≤ (selector_init 1024 16).policy_selector ∧
      (selector_init 1024 16).policy_selector ≤ POLICY_MAX :=
  C9_policy_counter.2.1 _ (SelReach.init 1024 16)


/-! ### Selector: sampler attribution (claim C2) and throttling (claim C6) -/

set_option maxRecDepth 4000 in
/-- Claim C2 (counterexample): with a 1024-set cache, set 0 is a sampler set;
a prefetch fill carrying metadata with only bit 31 (the Pythia tag) set
increments the sampler's Transformer issued counter and leaves the Pythia
issued counter at 0, and a useful-prefetch hit carrying the same metadata
credits the Transformer useful counter.  The attribution is not keyed by the
metadata source bits. -/
theorem C2_counterexample :
    ((selector_cache_fill 0 true (2 ^ 31) (selector_init 1024 16)).1.samplers.getD 0
        {}).transformer_issued = 1 ∧
    ((selector_cache_fill 0 true (2 ^ 31) (selector_init 1024 16)).1.samplers.getD 0
        {}).pythia_issued = 0 ∧
    ((selector_cache_operate 0 0 0 0 true true (2 ^ 31)
          (selector_init 1024 16)).st.samplers.getD 0 {}).transformer_useful = 1 ∧
    ((selector_cache_operate 0 0 0 0 true true (2 ^ 31)
          (selector_init 1024 16)).st.samplers.getD 0 {}).pythia_useful = 0 := by
  refine ⟨by decide, by decide, by decide, by decide⟩

theorem should_allow_samplers_eq (d : Nat) (st : SelectorState) :
    (should_allow_prefetch d st).2.samplers = st.samplers := by
  simp only [should_allow_prefetch]
  split_ifs <;> rfl

theorem should_allow_num_set_eq (d : Nat) (st : SelectorState) :
    (should_allow_prefetch d st).2.NUM_SET = st.NUM_SET := by
  simp only [should_allow_prefetch]
  split_ifs <;> rfl

theorem credit_num_set_eq (st : SelectorState) (set : Nat) :
    (selector_credit_useful st set).NUM_SET = st.NUM_SET := by
  simp only [selector_credit_useful]
  split_ifs <;> rfl

/-- Claim C2 (amended): in sampler sets, both the useful counter credited on a
useful-prefetch hit and the issued counter incremented on a prefetch fill are
attributed unconditionally to the Transformer; the metadata word is not
consulted (the selector state after the fill is independent of the metadata
word). -/
theorem C2_amended_sampler_attribution (st : SelectorState) (set meta meta2 : Nat)
    (hs : is_sampler_set st.NUM_SET set = true)
    (hidx : set / (get_set_sample_rate st.NUM_SET).toNat < st.samplers.length) :
    (((selector_cache_fill set true meta st).1.samplers.getD
        (set / (get_set_sample_rate st.NUM_SET).toNat) {})
      = (let e := st.samplers.getD (set / (get_set_sample_rate st.NUM_SET).toNat) {}
         { e with transformer_issued := e.transformer_issued + 1 })) ∧
    (selector_cache_fill set true meta st).1 = (selector_cache_fill set true meta2 st).1 ∧
    (∀ dram tm pm addr m,
      (addr >>> LOG2_BLOCK_SIZE) &&& (st.NUM_SET - 1).toNat = set →
      (selector_cache_operate dram tm pm addr true true m st).st.samplers
        = (let e := st.samplers.getD (set / (get_set_sample_rate st.NUM_SET).toNat) {}
           st.samplers.set (set / (get_set_sample_rate st.NUM_SET).toNat)
             { e with transformer_issued := e.transformer_issued,
                      transformer_useful := e.transformer_useful + 1 })) := by
  refine ⟨?_, rfl, ?_⟩
  · simp only [selector_cache_fill, hs, if_true]
    simp [List.getD, List.getElem?_set_self, hidx]
  · intro dram tm pm addr m hset
    have hcredit : (selector_credit_useful st set).samplers
        = (let e := st.samplers.getD (set / (get_set_sample_rate st.NUM_SET).toNat) {}
           st.samplers.set (set / (get_set_sample_rate st.NUM_SET).toNat)
             { e with transformer_useful := e.transformer_useful + 1 }) := by
      simp only [selector_credit_useful, hs, if_true, hidx]
    simp only [selector_cache_operate, hset, Bool.and_self, if_true]
    split_ifs <;>
      simp only [OperateOut.st, should_allow_samplers_eq, hcredit]

set_option maxRecDepth 4000 in
theorem C2_amended_sampler_attribution_witness :
    ((selector_cache_fill 0 true 5 (selector_init 1024 16)).1.samplers.getD 0 {})
      = (let e := (selector_init 1024 16).samplers.getD 0 {}
         { e with transformer_issued := e.transformer_issued + 1 }) :=
  (C2_amended_sampler_attribution (selector_init 1024 16) 0 5 6
    (by decide) (by decide)).1

/-- Modelled from the spec: accuracy is total useful over total issued across
samplers plus dedicated counters, 1.0 when nothing has been issued.  Stated
with explicit sums, to be compared with the source's accumulation loop. -/
def acc_spec (st : SelectorState) : ℚ :=
  let useful := st.dedicated_stats.transformer_useful + st.dedicated_stats.pythia_useful
    + (st.samplers.map (fun s => s.transformer_useful + s.pythia_useful)).sum
  let issued := st.dedicated_stats.transformer_issued + st.dedicated_stats.pythia_issued
    + (st.samplers.map (fun s => s.transformer_issued + s.pythia_issued)).sum
  if issued = 0 then 1 else mkRat useful issued

theorem selector_useful_fold (l : List SamplerEntry) (n : Nat) :
    l.foldl (fun a s => a + s.transformer_useful + s.pythia_useful) n
      = n + (l.map (fun s => s.transformer_useful + s.pythia_useful)).sum := by
  induction l generalizing n with
  | nil => simp
  | cons x xs ih => simp only [List.foldl_cons, List.map_cons, List.sum_cons, ih]; omega

theorem selector_issued_fold (l : List SamplerEntry) (n : Nat) :
    l.foldl (fun a s => a + s.transformer_issued + s.pythia_issued) n
      = n + (l.map (fun s => s.transformer_issued + s.pythia_issued)).sum := by
  induction l generalizing n with
  | nil => simp
  | cons x xs ih => simp only [List.foldl_cons, List.map_cons, List.sum_cons, ih]; omega

theorem get_prefetch_accuracy_eq_spec (st : SelectorState) :
    get_prefetch_accuracy st = acc_spec st := by
  simp only [get_prefetch_accuracy, acc_spec, selector_useful_fold, selector_issued_fold]

theorem should_allow_fst_iff (d : Nat) (st : SelectorState) :
    (should_allow_prefetch d st).1 = true ↔
      (get_bandwidth_utilization d < BW_UTIL_THRESHOLD ∧
        (get_prefetch_accuracy st > get_bandwidth_utilization d ∨
          get_prefetch_accuracy st > MIN_ACCURACY_THRESHOLD)) := by
  simp only [should_allow_prefetch]
  simp [Bool.and_eq_true, Bool.or_eq_true, decide_eq_true_eq]

theorem should_allow_throttled (d : Nat) (st : SelectorState)
    (h : (should_allow_prefetch d st).1 = false) :
    (should_allow_prefetch d st).2.prefetch_throttled_count
      = st.prefetch_throttled_count + 1 := by
  simp only [should_allow_prefetch] at *
  split_ifs at h ⊢ <;> simp_all

/-- The `useful_prefetch && cache_hit` stage of `prefetcher_cache_operate`:
the state as it stands when `should_allow_prefetch` is evaluated. -/
def selector_useful_stage (addr : Nat) (hit up : Bool) (st : SelectorState) : SelectorState :=
  let set := (addr >>> LOG2_BLOCK_SIZE) &&& (st.NUM_SET - 1).toNat
  if up && hit then selector_credit_useful st set else st

theorem operate_eq_stage (dram tm pm addr : Nat) (hit up : Bool) (meta : Nat)
    (st : SelectorState) :
    selector_cache_operate dram tm pm addr hit up meta st
      = (let set := (addr >>> LOG2_BLOCK_SIZE) &&& (st.NUM_SET - 1).toNat
         let s1 := selector_useful_stage addr hit up st
         let pr := should_allow_prefetch dram s1
         if !pr.1 then ⟨pr.2, meta, none⟩
         else if is_sampler_set pr.2.NUM_SET set
             || use_transformer_for_set pr.2.NUM_SET pr.2.policy_selector set then
           ⟨{ pr.2 with transformer_selected_count := pr.2.transformer_selected_count + 1 },
             tag_metadata_transformer tm, some .transformer⟩
         else
           ⟨{ pr.2 with pythia_selected_count := pr.2.pythia_selected_count + 1 },
             tag_metadata_pythia pm, some .pythia⟩) := rfl

/-- Claim C6: a call to the selector's `prefetcher_cache_operate` invokes an
underlying prefetcher iff `bw_util < 0.9` and (`acc > bw_util` or `acc > 0.1`),
where `acc` is total useful over total issued across samplers plus dedicated
counters (1 when nothing has been issued, measured after the useful-credit
step at the top of the call); when not allowed, the call returns `metadata_in`
unchanged, increments `prefetch_throttled_count`, and invokes neither
underlying prefetcher. -/
theorem C6_bandwidth_throttle
    (dram tm pm addr : Nat) (hit up : Bool) (meta : Nat) (st : SelectorState) :
    ((selector_cache_operate dram tm pm addr hit up meta st).invoked.isSome = true ↔
      (get_bandwidth_utilization dram < BW_UTIL_THRESHOLD ∧
        (acc_spec (selector_useful_stage addr hit up st) > get_bandwidth_utilization dram ∨
          acc_spec (selector_useful_stage addr hit up st) > MIN_ACCURACY_THRESHOLD))) ∧
    (¬ (get_bandwidth_utilization dram < BW_UTIL_THRESHOLD ∧
        (acc_spec (selector_useful_stage addr hit up st) > get_bandwidth_utilization dram ∨
          acc_spec (selector_useful_stage addr hit up st) > MIN_ACCURACY_THRESHOLD)) →
      (selector_cache_operate dram tm pm addr hit up meta st).meta = meta ∧
      (selector_cache_operate dram tm pm addr hit up meta st).invoked = none ∧
      (selector_cache_operate dram tm pm addr hit up meta st).st.prefetch_throttled_count
        = (selector_useful_stage addr hit up st).prefetch_throttled_count + 1) := by
  have hiff := should_allow_fst_iff dram (selector_useful_stage addr hit up st)
  rw [get_prefetch_accuracy_eq_spec] at hiff
  rw [operate_eq_stage]
  dsimp only
  cases hb : (should_allow_prefetch dram (selector_useful_stage addr hit up st)).1 with
  | false =>
    rw [hb] at hiff
    simp only [hb, Bool.not_false, if_true]
    constructor
    · simp only [Option.isSome_none]
      constructor
      · intro h; cases h
      · intro h
        exact absurd (hiff.mpr h) (by simp)
    · intro _
      exact ⟨by trivial, by trivial, should_allow_throttled dram _ hb⟩
  | true =>
    rw [hb] at hiff
    simp only [hb, Bool.not_true, Bool.false_eq_true, if_false]
    constructor
    · split_ifs <;> simp only [Option.isSome_some] <;>
        exact ⟨fun _ => hiff.mp rfl, fun _ => trivial⟩
    · intro hna
      exact absurd (hiff.mp rfl) hna

theorem C6_bandwidth_throttle_witness :
    (selector_cache_operate 15 0 0 0 false false 7 (selector_init 1024 16)).meta = 7 ∧
    (selector_cache_operate 15 0 0 0 false false 7 (selector_init 1024 16)).invoked
      = none ∧
    (selector_cache_operate 15 0 0 0 false false 7
        (selector_init 1024 16)).st.prefetch_throttled_count
      = (selector_useful_stage 0 false false (selector_init 1024 16)).prefetch_throttled_count
        + 1 := by
  have h := C6_bandwidth_throttle 15 0 0 0 false false 7 (selector_init 1024 16)
  exact h.2 (by decide)

theorem C7_metadata_tagging_witness :
    tag_metadata_transformer 0x12345678 &&& 0x3FFFFFFF = 0x12345678 &&& 0x3FFFFFFF ∧
      (tag_metadata_pythia 0x12345678).testBit 31 = true :=
  ⟨((C7_metadata_tagging 0x12345678 (by decide)).1).1,
    ((C7_metadata_tagging 0x12345678 (by decide)).2).2.1⟩

/-! ### Transformer stream prefetcher: configuration (transformer_stream.h) -/

def TRAINING_TABLE_SIZE : Nat := 32

def STREAM_TABLE_SIZE : Nat := 32

def REGION_SIZE_BLOCKS : Nat := 4

def CONFIRMATION_THRESHOLD : Nat := 3

def DEAD_STREAM_THRESHOLD : Nat := 1000

def SHORT_STREAM_THRESHOLD : Nat := 4

def BASE_PREFETCH_DEGREE : Nat := 2

def CLEANUP_INTERVAL : Nat := 256

def MAX_STREAM_GROUPS : Nat := 8

def MAX_STREAMS_PER_GROUP : Nat := 8

def DENSE_STRIDE_MAX : Int := 2

def MEDIUM_STRIDE_MAX : Int := 16

def DENSE_LENGTH_MIN : Nat := 8

def MEDIUM_LENGTH_MIN : Nat := 4

def DENSE_PREFETCH_DEGREE : Nat := 4

def MEDIUM_PREFETCH_DEGREE : Nat := 2

def SPARSE_PREFETCH_DEGREE : Nat := 1

def REUSE_WINDOW_SIZE : Nat := 2000

def MAX_CONFIDENCE : Nat := 8

def CONFIDENCE_BOOST_ON_REUSE : Nat := 2

def FAST_TRACK_CONFIDENCE : Nat := 4

def PATTERN_HISTORY_SIZE : Nat := 16

def PHASE_WINDOW_SIZE : Nat := 64

def PHASE_TRANSITION_THRESHOLD : Nat := 4

def MIN_PREFETCH_DEGREE : Nat := 1

def PHASE_RECOVERY_WINDOW : Nat := 32

def CONSERVATIVE_LOOKAHEAD : Nat := 1

def AGGRESSIVE_LOOKAHEAD : Nat := 4

def STRIDE_STABILITY_THRESHOLD : Nat := 3

inductive StreamDirection where
  | UNKNOWN
  | POSITIVE
  | NEGATIVE
deriving DecidableEq

/-- The `int8_t` value behind each enumerator (`static_cast<int64_t>(direction)`). -/
def StreamDirection.toInt : StreamDirection → Int
  | .UNKNOWN => 0
  | .POSITIVE => 1
  | .NEGATIVE => -1

inductive StreamClass where
  | UNKNOWN
  | DENSE
  | MEDIUM
  | SPARSE
deriving DecidableEq

/-- Wrap an integer into `int32_t` two's-complement range
(`static_cast<int32_t>` on a 64-bit value). -/
def int32_cast (x : Int) : Int := (x + 2 ^ 31) % 2 ^ 32 - 2 ^ 31

/-- Training table entry.  Field defaults are the values established by
`prefetcher_initialize` (the miss-history blocks are left at their
default-constructed value 0). -/
structure TrainingEntry where
  valid : Bool := false
  region_base : Int := 0
  last_miss_block : Int := 0
  second_last_miss_block : Int := 0
  third_last_miss_block : Int := 0
  miss_count : Nat := 0
  direction : StreamDirection := .UNKNOWN
  stride : Int := 1
  last_access_timestamp : Nat := 0
  pattern_confidence : Nat := 0

/-- Stream table entry; defaults are the post-`prefetcher_initialize` values
(in particular `active := false`, overriding the struct default `true`). -/
structure TransformerStreamEntry where
  valid : Bool := false
  active : Bool := false
  stream_start_block : Int := 0
  stream_end_block : Int := 0
  current_prefetch_block : Int := 0
  direction : StreamDirection := .POSITIVE
  stride : Int := 1
  last_trigger_timestamp : Nat := 0
  stream_length : Nat := 0
  stream_class : StreamClass := .UNKNOWN
  reactivation_count : Nat := 0
  confidence_score : Nat := 1
  accesses_in_window : Nat := 0
  window_start_timestamp : Nat := 0
  group_id : Int := -1
  consistent_stride_count : Nat := 0

/-- Stream group; the fixed member array is a total function on slot indices
`0 .. MAX_STREAMS_PER_GROUP - 1`, `-1` marking an empty slot. -/
structure StreamGroup where
  valid : Bool := false
  stride : Int := 0
  direction : StreamDirection := .UNKNOWN
  member_count : Nat := 0
  group_confidence : Nat := 0
  last_seen_timestamp : Nat := 0
  typical_class : StreamClass := .UNKNOWN
  members : Nat → Int := fun _ => -1

structure PatternHistoryEntry where
  valid : Bool := false
  direction : StreamDirection := .UNKNOWN
  stride : Int := 0
  region_base : Int := 0
  termination_timestamp : Nat := 0
  stream_length : Nat := 0
  stream_class : StreamClass := .UNKNOWN

structure PhaseState where
  window_start_timestamp : Nat := 0
  streams_terminated_in_window : Nat := 0
  misses_in_window : Nat := 0
  successful_prefetches_in_window : Nat := 0
  current_prefetch_degree : Nat := BASE_PREFETCH_DEGREE
  in_phase_transition : Bool := false
  recovery_counter : Nat := 0

structure TransformerState where
  training_table : Nat → TrainingEntry := fun _ => {}
  stream_table : Nat → TransformerStreamEntry := fun _ => {}
  stream_groups : Nat → StreamGroup := fun _ => {}
  pattern_history : Nat → PatternHistoryEntry := fun _ => {}
  pattern_history_head : Nat := 0
  phase_state : PhaseState := {}
  current_timestamp : Nat := 0
  cleanup_counter : Nat := 0

/-- Pointwise array update. -/
def upd {α : Type} (t : Nat → α) (i : Nat) (x : α) : Nat → α :=
  fun j => if j = i then x else t j

/-- First index `i < n` with `p i`, else `-1` (the scan-and-return idiom of
the source's linear table searches). -/
def first_idx (n : Nat) (p : Nat → Bool) : Int :=
  match (List.range n).find? p with
  | some i => (i : Int)
  | none => -1

/-- The state after `prefetcher_initialize`. -/
def transformer_init : TransformerState := {}

/-! ### Transformer: region and training primitives (transformer_stream.cc) -/

/-- `block & ~(REGION_SIZE_BLOCKS-1)` on the uint64 block number: subtracting
the Euclidean remainder modulo 4 clears the two low bits. -/
def compute_region_base (block : Int) : Int :=
  block - block % (REGION_SIZE_BLOCKS : Int)

def find_training_entry (s : TransformerState) (region_base : Int) : Int :=
  first_idx TRAINING_TABLE_SIZE (fun i =>
    (s.training_table i).valid && ((s.training_table i).region_base == region_base))

/-- Strict-minimum scan used for LRU eviction: the running minimum starts at
`UINT64_MAX`, which no timestamp of a reachable run attains, modelled by the
`none` starting accumulator. -/
def min_ts_go (ts_of : Nat → Nat) : List Nat → Nat → Option Nat → Nat
  | [], best, _ => best
  | i :: rest, best, none => min_ts_go ts_of rest i (some (ts_of i))
  | i :: rest, best, some t =>
      if ts_of i < t then min_ts_go ts_of rest i (some (ts_of i))
      else min_ts_go ts_of rest best (some t)

def scan_min_ts (ts_of : Nat → Nat) (n : Nat) : Nat :=
  min_ts_go ts_of (List.range n) 0 none

def fresh_training_entry (old : TrainingEntry) (region_base : Int) (ts : Nat) : TrainingEntry :=
  { old with valid := true, region_base := region_base, miss_count := 0,
             direction := .UNKNOWN, stride := 1, last_access_timestamp := ts,
             pattern_confidence := 0 }

def allocate_training_entry (s : TransformerState) (region_base : Int) :
    TransformerState × Nat :=
  let inv := first_idx TRAINING_TABLE_SIZE (fun i => !(s.training_table i).valid)
  if inv ≥ 0 then
    let e := fresh_training_entry (s.training_table inv.toNat) region_base s.current_timestamp
    ({ s with training_table := upd s.training_table inv.toNat e }, inv.toNat)
  else
    let lru := scan_min_ts (fun i => (s.training_table i).last_access_timestamp)
      TRAINING_TABLE_SIZE
    let e := fresh_training_entry (s.training_table lru) region_base s.current_timestamp
    ({ s with training_table := upd s.training_table lru e }, lru)

def is_noise (gap1 gap2 : Int) : Bool :=
  if (gap1 == 1 && decide (gap2 < 0)) || (gap1 == -1 && decide (gap2 > 0)) ||
      (gap2 == 1 && decide (gap1 < 0)) || (gap2 == -1 && decide (gap1 > 0)) then
    decide (|gap1| ≤ 1) || decide (|gap2| ≤ 1)
  else false

def detect_direction (gap1 gap2 : Int) : StreamDirection :=
  if gap1 > 0 ∧ gap2 > 0 then .POSITIVE
  else if gap1 < 0 ∧ gap2 < 0 then .NEGATIVE
  else .UNKNOWN

def detect_stride (gap1 gap2 : Int) : Int :=
  let abs_gap1 := |gap1|
  let abs_gap2 := |gap2|
  if abs_gap1 ≠ abs_gap2 then 0
  else if abs_gap1 < 1 then 0
  else int32_cast abs_gap1

def find_matching_pattern (s : TransformerState) (dir : StreamDirection) (stride : Int)
    (region : Int) : Int :=
  let region_base := compute_region_base region
  first_idx PATTERN_HISTORY_SIZE (fun i =>
    let p := s.pattern_history i
    p.valid &&
    !(decide (s.current_timestamp - p.termination_timestamp > REUSE_WINDOW_SIZE)) &&
    decide (p.direction = dir) && (p.stride == stride) &&
    decide (|compute_region_base p.region_base - region_base|
      ≤ (REGION_SIZE_BLOCKS : Int) * 4))

def get_pattern_confidence (s : TransformerState) (dir : StreamDirection) (stride : Int)
    (region : Int) : Nat :=
  let idx := find_matching_pattern s dir stride region
  if idx < 0 then 0
  else
    let p := s.pattern_history idx.toNat
    let c1 := if p.stream_length ≥ DENSE_LENGTH_MIN then 1 + 2 else 1
    let age := s.current_timestamp - p.termination_timestamp
    let c2 :=
      if age < REUSE_WINDOW_SIZE / 4 then c1 + 2
      else if age < REUSE_WINDOW_SIZE / 2 then c1 + 1
      else c1
    min c2 (MAX_CONFIDENCE / 2)

def can_fast_track_training (e : TrainingEntry) : Bool :=
  e.pattern_confidence ≥ FAST_TRACK_CONFIDENCE

def update_training_entry (s : TransformerState) (idx : Nat) (miss_block : Int) :
    TransformerState :=
  let e0 := s.training_table idx
  let e := { e0 with last_access_timestamp := s.current_timestamp }
  if e.miss_count = 0 then
    let pc0 := get_pattern_confidence s .UNKNOWN 0 e.region_base
    let e1 := { e with last_miss_block := miss_block, miss_count := 1, pattern_confidence := pc0 }
    { s with training_table := upd s.training_table idx e1 }
  else if e.miss_count = 1 then
    let e1 := { e with second_last_miss_block := e.last_miss_block, last_miss_block := miss_block, miss_count := 2 }
    { s with training_table := upd s.training_table idx e1 }
  else
    let sh := { e with third_last_miss_block := e.second_last_miss_block, second_last_miss_block := e.last_miss_block, last_miss_block := miss_block }
    let gap1 := sh.second_last_miss_block - sh.third_last_miss_block
    let gap2 := sh.last_miss_block - sh.second_last_miss_block
    if is_noise gap1 gap2 then
      { s with training_table := upd s.training_table idx sh }
    else
      let detected_dir := detect_direction gap1 gap2
      if detected_dir = .UNKNOWN then
        let e1 := { sh with miss_count := 1, direction := StreamDirection.UNKNOWN, stride := 1 }
        { s with training_table := upd s.training_table idx e1 }
      else
        let detected_stride := detect_stride gap1 gap2
        if detected_stride ≤ 0 then
          let e1 := { sh with miss_count := 1, direction := StreamDirection.UNKNOWN, stride := 1 }
          { s with training_table := upd s.training_table idx e1 }
        else
          let pc := get_pattern_confidence s detected_dir detected_stride sh.region_base
          let e1 := { sh with direction := detected_dir, stride := detected_stride, miss_count := 3, pattern_confidence := pc }
          { s with training_table := upd s.training_table idx e1 }

/-- Modelled from the spec: the noise predicate as the claim words it —
exactly one of `|gap1| ≤ 1`, `|gap2| ≤ 1` (exclusive or) and opposite signs.
Used only for comparison with the source's `is_noise`. -/
def noise_spec_xor (gap1 gap2 : Int) : Bool :=
  (decide (|gap1| ≤ 1) != decide (|gap2| ≤ 1)) &&
    (decide (gap1 < 0 ∧ gap2 > 0) || decide (gap1 > 0 ∧ gap2 < 0))

/-- Claim C3 (counterexample): the gap pair `(1, -1)` has both gaps of
magnitude at most 1, so the claimed exclusive-or predicate rejects it, but the
source's `is_noise` classifies it as noise. -/
theorem C3_counterexample :
    is_noise 1 (-1) = true ∧ noise_spec_xor 1 (-1) = false := by
  refine ⟨by decide, by decide⟩

/-- The shifted-history entry written back by the noise branch of
`update_training_entry`. -/
def noise_shifted (s : TransformerState) (idx : Nat) (miss_block : Int) : TrainingEntry :=
  { s.training_table idx with
    last_access_timestamp := s.current_timestamp,
    third_last_miss_block := (s.training_table idx).second_last_miss_block,
    second_last_miss_block := (s.training_table idx).last_miss_block,
    last_miss_block := miss_block }

/-- Claim C3 (amended): the training noise predicate holds iff the two gaps
have strictly opposite signs and at least one of `|gap1| ≤ 1`, `|gap2| ≤ 1`
holds (inclusive rather than exclusive or); when it holds on the shifted
history's gap pair, the entry keeps its miss count, direction, stride and
pattern confidence, and the miss history is only shifted by the new block,
not cleared. -/
theorem C3_amended_noise (g1 g2 : Int) :
    (is_noise g1 g2 = true ↔
      ((|g1| ≤ 1 ∨ |g2| ≤ 1) ∧ (g1 < 0 ∧ g2 > 0 ∨ g1 > 0 ∧ g2 < 0))) ∧
    (∀ (s : TransformerState) (idx : Nat) (miss_block : Int),
      (s.training_table idx).miss_count ≠ 0 →
      (s.training_table idx).miss_count ≠ 1 →
      is_noise
        ((s.training_table idx).last_miss_block
          - (s.training_table idx).second_last_miss_block)
        (miss_block - (s.training_table idx).last_miss_block) = true →
      update_training_entry s idx miss_block
        = { s with
            training_table := upd s.training_table idx (noise_shifted s idx miss_block) }) := by
  constructor
  · simp only [is_noise]
    split_ifs with h
    · simp only [Bool.or_eq_true, Bool.and_eq_true, beq_iff_eq, decide_eq_true_eq] at h ⊢
      rw [abs_le, abs_le] at *
      constructor
      · intro hg; omega
      · intro hg; omega
    · simp only [Bool.or_eq_true, Bool.and_eq_true, beq_iff_eq, decide_eq_true_eq,
        not_or] at h
      simp only [Bool.false_eq_true, false_iff, not_and, not_or]
      intro habs
      rw [abs_le, abs_le] at habs
      omega
  · intro s idx miss_block h0 h1 hn
    simp only [update_training_entry, h0, h1, if_false, hn, if_true, noise_shifted]

def c3_entry : TrainingEntry :=
  { valid := true, region_base := 300, last_miss_block := 304, second_last_miss_block := 300,
    third_last_miss_block := 0, miss_count := 2, direction := .UNKNOWN, stride := 1,
    last_access_timestamp := 2, pattern_confidence := 0 }

def c3_state : TransformerState :=
  { transformer_init with
    training_table := upd transformer_init.training_table 0 c3_entry, current_timestamp := 3 }

theorem C3_amended_noise_witness :
    update_training_entry c3_state 0 303
      = { c3_state with
          training_table := upd c3_state.training_table 0 (noise_shifted c3_state 0 303) } :=
  (C3_amended_noise 4 (-1)).2 c3_state 0 303 (by decide) (by decide) (by decide)

/-! ### Transformer: phase detection (transformer_stream.cc, lines 535-584) -/

def try_phase_recovery (p : PhaseState) : PhaseState :=
  let p1 := { p with recovery_counter := p.recovery_counter + 1 }
  if p1.recovery_counter ≥ PHASE_RECOVERY_WINDOW then
    { p1 with in_phase_transition := false,
              current_prefetch_degree := BASE_PREFETCH_DEGREE, recovery_counter := 0 }
  else p1

def update_phase_state (ts : Nat) (stream_terminated : Bool) (p : PhaseState) : PhaseState :=
  let p1 := { p with misses_in_window := p.misses_in_window + 1 }
  let p2 :=
    if stream_terminated then
      { p1 with streams_terminated_in_window := p1.streams_terminated_in_window + 1 }
    else p1
  let p3 :=
    if p2.misses_in_window ≥ PHASE_WINDOW_SIZE then
      let p2a :=
        if p2.streams_terminated_in_window ≥ PHASE_TRANSITION_THRESHOLD then
          { p2 with in_phase_transition := true,
                    current_prefetch_degree := MIN_PREFETCH_DEGREE, recovery_counter := 0 }
        else p2
      { p2a with window_start_timestamp := ts,
                 streams_terminated_in_window := 0, misses_in_window := 0 }
    else p2
  if p3.in_phase_transition then try_phase_recovery p3 else p3

/-- `update_phase_state` at the whole-prefetcher level. -/
def transformer_update_phase (s : TransformerState) (stream_terminated : Bool) :
    TransformerState :=
  { s with phase_state := update_phase_state s.current_timestamp stream_terminated s.phase_state }

/-- Phase states reachable from the initial phase state: `update_phase_state`
is the only function that writes any `phase_state` field after
`prefetcher_initialize`.  -/
inductive PhaseReach : PhaseState → Prop where
  | init : PhaseReach ({} : PhaseState)
  | step {p} (h : PhaseReach p) (ts : Nat) (terminated : Bool) :
      PhaseReach (update_phase_state ts terminated p)

/-- Invariant of reachable phase states: while in transition, the recovery
counter is between 1 and 31 and runs exactly one ahead of the (reset) miss
window, so a window rollover can never occur during a transition. -/
def phase_inv (p : PhaseState) : Prop :=
  p.in_phase_transition = true →
    1 ≤ p.recovery_counter ∧ p.recovery_counter ≤ 31 ∧
      p.misses_in_window + 1 = p.recovery_counter

theorem phase_reach_inv {p : PhaseState} (h : PhaseReach p) : phase_inv p := by
  induction h with
  | init => intro hord; cases hord
  | step h ts terminated ih =>
    intro htr
    rename_i q
    unfold update_phase_state at htr ⊢
    by_cases hq : q.in_phase_transition = true
    · obtain ⟨h1, h2, h3⟩ := ih hq
      simp only [try_phase_recovery, PHASE_WINDOW_SIZE, PHASE_TRANSITION_THRESHOLD,
        PHASE_RECOVERY_WINDOW, MIN_PREFETCH_DEGREE, BASE_PREFETCH_DEGREE] at htr ⊢
      split_ifs at htr ⊢ <;> simp_all <;> omega
    · simp only [Bool.not_eq_true] at hq
      simp only [try_phase_recovery, PHASE_WINDOW_SIZE, PHASE_TRANSITION_THRESHOLD,
        PHASE_RECOVERY_WINDOW, MIN_PREFETCH_DEGREE, BASE_PREFETCH_DEGREE] at htr ⊢
      split_ifs at htr ⊢ <;> simp_all <;> omega

/-- Claim C5: in any reachable phase state that is in transition, a
non-terminating miss increments `recovery_counter`, and when the counter
reaches `PHASE_RECOVERY_WINDOW = 32` the prefetcher exits the transition and
restores the degree to `BASE_PREFETCH_DEGREE = 2`. -/
theorem C5_phase_recovery (ts : Nat) (p : PhaseState) (hr : PhaseReach p)
    (htr : p.in_phase_transition = true) :
    PHASE_RECOVERY_WINDOW = 32 ∧ BASE_PREFETCH_DEGREE = 2 ∧
    (p.recovery_counter + 1 < 32 →
      (update_phase_state ts false p).recovery_counter = p.recovery_counter + 1 ∧
      (update_phase_state ts false p).in_phase_transition = true) ∧
    (p.recovery_counter + 1 ≥ 32 →
      (update_phase_state ts false p).in_phase_transition = false ∧
      (update_phase_state ts false p).current_prefetch_degree = 2 ∧
      (update_phase_state ts false p).recovery_counter = 0) := by
  obtain ⟨h1, h2, h3⟩ := phase_reach_inv hr htr
  refine ⟨rfl, rfl, ?_, ?_⟩ <;>
    · intro hc
      unfold update_phase_state try_phase_recovery
      simp only [PHASE_WINDOW_SIZE, PHASE_TRANSITION_THRESHOLD, PHASE_RECOVERY_WINDOW,
        MIN_PREFETCH_DEGREE, BASE_PREFETCH_DEGREE]
      split_ifs <;> simp_all <;> omega

/-- A concrete reachable in-transition phase state: 64 terminating misses from
the initial state fill the first window with 64 terminations and trigger the
transition. -/
def phase_iter : Nat → PhaseState
  | 0 => {}
  | n + 1 => update_phase_state 0 true (phase_iter n)

theorem phase_iter_reach (n : Nat) : PhaseReach (phase_iter n) := by
  induction n with
  | zero => exact PhaseReach.init
  | succ n ih => exact PhaseReach.step ih 0 true

set_option maxRecDepth 20000 in
theorem C5_phase_recovery_witness :
    (phase_iter 64).in_phase_transition = true ∧
      (update_phase_state 0 false (phase_iter 64)).recovery_counter
        = (phase_iter 64).recovery_counter + 1 := by
  have h := C5_phase_recovery 0 (phase_iter 64) (phase_iter_reach 64) (by decide)
  exact ⟨by decide, (h.2.2.1 (by decide)).1⟩

/-! ### Transformer: stream grouping (transformer_stream.cc, lines 230-378) -/

def find_stream_group (s : TransformerState) (dir : StreamDirection) (stride : Int) : Int :=
  first_idx MAX_STREAM_GROUPS (fun i =>
    (s.stream_groups i).valid && decide ((s.stream_groups i).direction = dir) &&
      ((s.stream_groups i).stride == stride))

/-- Group classification by stride, shared by both creation paths of
`find_or_create_stream_group`. -/
def group_class_of_stride (stride : Int) : StreamClass :=
  if stride ≤ DENSE_STRIDE_MAX then .DENSE
  else if stride ≤ MEDIUM_STRIDE_MAX then .MEDIUM
  else .SPARSE

def fresh_group (dir : StreamDirection) (stride : Int) (ts : Nat) : StreamGroup :=
  { valid := true, direction := dir, stride := stride, member_count := 0,
    group_confidence := 0, last_seen_timestamp := ts, members := fun _ => -1,
    typical_class := group_class_of_stride stride }

/-- The oldest-group scan of `find_or_create_stream_group`: the running
minimum starts at `UINT64_MAX` (`none`), and a group with `member_count == 0`
also captures the minimum (the source's `||` condition). -/
def group_evict_go (g : Nat → StreamGroup) : List Nat → Nat → Option Nat → Nat
  | [], best, _ => best
  | i :: rest, best, cur =>
      let cond := ((g i).member_count == 0) ||
        (match cur with | none => true | some t => decide ((g i).last_seen_timestamp < t))
      if cond then group_evict_go g rest i (some ((g i).last_seen_timestamp))
      else group_evict_go g rest best cur

def clear_member_step (gi : Nat) (st : TransformerState) (j : Nat) : TransformerState :=
  let m := (st.stream_groups gi).members j
  if 0 ≤ m ∧ m < (STREAM_TABLE_SIZE : Int) then
    { st with
      stream_table := upd st.stream_table m.toNat
        { st.stream_table m.toNat with group_id := -1 } }
  else st

def clear_group_members (s : TransformerState) (gi : Nat) : TransformerState :=
  (List.range MAX_STREAMS_PER_GROUP).foldl (clear_member_step gi) s

def find_or_create_stream_group (s : TransformerState) (dir : StreamDirection)
    (stride : Int) : TransformerState × Nat :=
  let existing := find_stream_group s dir stride
  if existing ≥ 0 then
    let g := s.stream_groups existing.toNat
    ({ s with
       stream_groups := upd s.stream_groups existing.toNat
         { g with last_seen_timestamp := s.current_timestamp } },
      existing.toNat)
  else
    let inv := first_idx MAX_STREAM_GROUPS (fun i => !(s.stream_groups i).valid)
    if inv ≥ 0 then
      ({ s with
         stream_groups := upd s.stream_groups inv.toNat
           (fresh_group dir stride s.current_timestamp) },
        inv.toNat)
    else
      let oldest := group_evict_go s.stream_groups (List.range MAX_STREAM_GROUPS) 0 none
      let s1 := clear_group_members s oldest
      ({ s1 with
         stream_groups := upd s1.stream_groups oldest
           (fresh_group dir stride s1.current_timestamp) },
        oldest)

def add_stream_to_group (s : TransformerState) (stream_idx group_idx : Int) :
    TransformerState :=
  if group_idx < 0 ∨ group_idx ≥ (MAX_STREAM_GROUPS : Int) then s
  else if stream_idx < 0 ∨ stream_idx ≥ (STREAM_TABLE_SIZE : Int) then s
  else
    let g := s.stream_groups group_idx.toNat
    let slot := first_idx MAX_STREAMS_PER_GROUP (fun j => decide (g.members j < 0))
    if slot ≥ 0 then
      let g1 := { g with members := upd g.members slot.toNat stream_idx, member_count := g.member_count + 1 }
      let e := s.stream_table stream_idx.toNat
      let e1 := { e with group_id := group_idx, stream_class := g.typical_class }
      { s with stream_groups := upd s.stream_groups group_idx.toNat g1,
               stream_table := upd s.stream_table stream_idx.toNat e1 }
    else
      let e := s.stream_table stream_idx.toNat
      let e1 := { e with group_id := group_idx }
      { s with stream_table := upd s.stream_table stream_idx.toNat e1 }

def remove_stream_from_group (s : TransformerState) (stream_idx : Int) :
    TransformerState :=
  if stream_idx < 0 ∨ stream_idx ≥ (STREAM_TABLE_SIZE : Int) then s
  else
    let gid := (s.stream_table stream_idx.toNat).group_id
    if gid < 0 ∨ gid ≥ (MAX_STREAM_GROUPS : Int) then
      let e := s.stream_table stream_idx.toNat
      let e1 := { e with group_id := -1 }
      { s with stream_table := upd s.stream_table stream_idx.toNat e1 }
    else
      let g := s.stream_groups gid.toNat
      let slot := first_idx MAX_STREAMS_PER_GROUP (fun j => g.members j == stream_idx)
      let mc := if g.member_count > 0 then g.member_count - 1 else g.member_count
      let g1 :=
        if slot ≥ 0 then
          { g with members := upd g.members slot.toNat (-1), member_count := mc }
        else g
      let g2 := if g1.member_count = 0 then { g1 with valid := false } else g1
      let e := s.stream_table stream_idx.toNat
      { s with stream_groups := upd s.stream_groups gid.toNat g2,
               stream_table := upd s.stream_table stream_idx.toNat { e with group_id := -1 } }

def is_group_protected (s : TransformerState) (stream_idx : Int) : Bool :=
  if stream_idx < 0 ∨ stream_idx ≥ (STREAM_TABLE_SIZE : Int) then false
  else
    let gid := (s.stream_table stream_idx.toNat).group_id
    if gid < 0 ∨ gid ≥ (MAX_STREAM_GROUPS : Int) then false
    else (s.stream_groups gid.toNat).member_count ≥ 2

/-! ### Transformer: classification and pattern history (lines 385-528) -/

def classify_stream (e : TransformerStreamEntry) : StreamClass :=
  if e.stride ≤ DENSE_STRIDE_MAX then
    if e.stream_length ≥ DENSE_LENGTH_MIN then .DENSE else .MEDIUM
  else if e.stride ≤ MEDIUM_STRIDE_MAX then
    if e.stream_length ≥ MEDIUM_LENGTH_MIN then .MEDIUM else .SPARSE
  else .SPARSE

def get_prefetch_degree_for_class (cls : StreamClass) : Nat :=
  match cls with
  | .DENSE => DENSE_PREFETCH_DEGREE
  | .MEDIUM => MEDIUM_PREFETCH_DEGREE
  | .SPARSE => SPARSE_PREFETCH_DEGREE
  | .UNKNOWN => BASE_PREFETCH_DEGREE

def update_stream_classification (s : TransformerState) (stream_idx : Int) :
    TransformerState :=
  if stream_idx < 0 ∨ stream_idx ≥ (STREAM_TABLE_SIZE : Int) then s
  else
    let e := s.stream_table stream_idx.toNat
    if ¬ e.valid then s
    else
      let e1 := { e with stream_class := classify_stream e }
      let s1 := { s with stream_table := upd s.stream_table stream_idx.toNat e1 }
      if 0 ≤ e1.group_id ∧ e1.group_id < (MAX_STREAM_GROUPS : Int) then
        let g := s1.stream_groups e1.group_id.toNat
        let g1 := { g with typical_class := e1.stream_class }
        { s1 with stream_groups := upd s1.stream_groups e1.group_id.toNat g1 }
      else s1

def record_pattern (s : TransformerState) (e : TransformerStreamEntry) : TransformerState :=
  let p : PatternHistoryEntry :=
    { valid := true, direction := e.direction, stride := e.stride,
      region_base := e.stream_start_block, termination_timestamp := s.current_timestamp,
      stream_length := e.stream_length, stream_class := e.stream_class }
  { s with pattern_history := upd s.pattern_history s.pattern_history_head p,
           pattern_history_head := (s.pattern_history_head + 1) % PATTERN_HISTORY_SIZE }

def reinforce_stream_confidence (s : TransformerState) (stream_idx : Int) :
    TransformerState :=
  if stream_idx < 0 ∨ stream_idx ≥ (STREAM_TABLE_SIZE : Int) then s
  else
    let e := s.stream_table stream_idx.toNat
    if ¬ e.valid then s
    else
      let e1 := { e with confidence_score := min (e.confidence_score + 1) MAX_CONFIDENCE }
      let s1 := { s with stream_table := upd s.stream_table stream_idx.toNat e1 }
      if 0 ≤ e1.group_id ∧ e1.group_id < (MAX_STREAM_GROUPS : Int) then
        let g := s1.stream_groups e1.group_id.toNat
        let g1 := { g with group_confidence := g.group_confidence + 1 }
        { s1 with stream_groups := upd s1.stream_groups e1.group_id.toNat g1 }
      else s1

/-! ### Transformer: lookahead, stream search, eviction (lines 591-753) -/

def get_safe_lookahead (e : TransformerStreamEntry) : Nat :=
  if e.consistent_stride_count ≥ STRIDE_STABILITY_THRESHOLD then
    if e.stream_class = .DENSE then AGGRESSIVE_LOOKAHEAD else BASE_PREFETCH_DEGREE
  else CONSERVATIVE_LOOKAHEAD

def is_at_stride_boundary (e : TransformerStreamEntry) : Bool :=
  if e.direction = .POSITIVE then
    decide (e.stream_end_block - e.current_prefetch_block ≤ e.stride)
  else
    decide (e.current_prefetch_block - e.stream_end_block ≤ e.stride)

def find_stream_for_block (s : TransformerState) (block : Int) : Int :=
  first_idx STREAM_TABLE_SIZE (fun i =>
    let e := s.stream_table i
    e.valid &&
      (if e.direction = .POSITIVE then
        decide (e.stream_start_block ≤ block ∧ block ≤ e.current_prefetch_block)
      else
        decide (block ≤ e.stream_start_block ∧ e.current_prefetch_block ≤ block)))

def find_matching_inactive_stream (s : TransformerState) (dir : StreamDirection)
    (stride : Int) (region_base : Int) : Int :=
  first_idx STREAM_TABLE_SIZE (fun i =>
    let e := s.stream_table i
    e.valid && !e.active && decide (e.direction = dir) && (e.stride == stride) &&
      decide (|compute_region_base e.stream_start_block - region_base|
        ≤ (REGION_SIZE_BLOCKS : Int) * 2))

def compute_eviction_priority (s : TransformerState) (stream_idx : Int) : Int :=
  if stream_idx < 0 ∨ stream_idx ≥ (STREAM_TABLE_SIZE : Int) then 0
  else
    let e := s.stream_table stream_idx.toNat
    if ¬ e.valid then 2147483647
    else
      let base : Int :=
        match e.stream_class with
        | .DENSE => 30
        | .MEDIUM => 20
        | .SPARSE => 10
        | .UNKNOWN => 15
      let p1 := base + (e.confidence_score : Int) * 2
      let p2 :=
        if 0 ≤ e.group_id ∧ e.group_id < (MAX_STREAM_GROUPS : Int) then
          p1 + ((s.stream_groups e.group_id.toNat).member_count : Int) * 3
        else p1
      let p3 := if e.active then p2 + 10 else p2
      let age := s.current_timestamp - e.last_trigger_timestamp
      let p4 := if age > DEAD_STREAM_THRESHOLD / 2 then p3 - 5 else p3
      if age > DEAD_STREAM_THRESHOLD then p4 - 10 else p4

/-- The victim scan of `select_victim_stream`: the first invalid entry returns
immediately; otherwise the first strict-minimum priority wins (`INT_MAX`
starting minimum modelled by `none`). -/
def victim_go (s : TransformerState) : List Nat → Int → Option Int → Int
  | [], best, _ => best
  | i :: rest, best, cur =>
      if (s.stream_table i).valid = false then (i : Int)
      else
        let p := compute_eviction_priority s (i : Int)
        let better := match cur with
          | none => true
          | some lowest => decide (p < lowest)
        if better then victim_go s rest (i : Int) (some p)
        else victim_go s rest best cur

def select_victim_stream (s : TransformerState) : Int :=
  victim_go s (List.range STREAM_TABLE_SIZE) (-1) none

/-! ### Transformer: termination, dead-stream sweep, allocation (lines 727-968) -/

def terminate_stream (s : TransformerState) (stream_idx : Int) : TransformerState :=
  if stream_idx < 0 ∨ stream_idx ≥ (STREAM_TABLE_SIZE : Int) then s
  else
    let e := s.stream_table stream_idx.toNat
    if ¬ e.valid then s
    else
      let s1 := record_pattern s e
      let s2 := remove_stream_from_group s1 stream_idx
      let s3 := transformer_update_phase s2 true
      let e3 := s3.stream_table stream_idx.toNat
      let e4 := { e3 with valid := false, active := false }
      { s3 with stream_table := upd s3.stream_table stream_idx.toNat e4 }

def remove_dead_streams (s : TransformerState) : TransformerState :=
  (List.range STREAM_TABLE_SIZE).foldl
    (fun st i =>
      let e := st.stream_table i
      if ¬ e.valid then st
      else
        let age := st.current_timestamp - e.last_trigger_timestamp
        let is_dead := age > DEAD_STREAM_THRESHOLD ∧ e.stream_length < SHORT_STREAM_THRESHOLD
        let is_dead :=
          if is_dead ∧ is_group_protected st (i : Int) then
            if e.confidence_score ≥ FAST_TRACK_CONFIDENCE then False else is_dead
          else is_dead
        if is_dead then terminate_stream st (i : Int) else st) s

def allocate_stream_entry (s : TransformerState) : TransformerState × Int :=
  let inv1 := first_idx STREAM_TABLE_SIZE (fun i => !(s.stream_table i).valid)
  if inv1 ≥ 0 then (s, inv1)
  else
    let s1 := remove_dead_streams s
    let inv2 := first_idx STREAM_TABLE_SIZE (fun i => !(s1.stream_table i).valid)
    if inv2 ≥ 0 then (s1, inv2)
    else
      let victim := select_victim_stream s1
      let s2 := if victim ≥ 0 then terminate_stream s1 victim else s1
      (s2, victim)

/-! ### Transformer: prefetch generation (transformer_stream.cc, lines 847-919) -/

/-- External environment of one run: per-query MSHR occupancy ratio (a C++
double in `[0,1]`, modelled as `ℚ`) and `prefetch_line` success.  Query `qi`
is consumed once per loop iteration of `generate_prefetches`. -/
structure GenEnv where
  mshr_occupancy : Nat → ℚ
  line_ok : Nat → Bool

/-- The prefetch loop.  `remaining` counts down from `actual_degree`; `i` is
the source's loop index (for the `i > 0` boundary test).  The returned flag
records whether the loop was left by `break` or normal completion (in which
case the source falls through to the trailing `last_trigger_timestamp`
update) rather than by `return`.  The `fill_this_level` argument of
`prefetch_line` (`ratio < 0.5`) only affects the host. -/
def gen_loop (env : GenEnv) (idx : Nat) :
    Nat → Nat → Nat → TransformerState → TransformerState × Nat × Bool
  | 0, _, qi, s => (s, qi, true)
  | remaining + 1, i, qi, s =>
      let e := s.stream_table idx
      let dir_val := e.direction.toInt
      let next := e.current_prefetch_block + dir_val * e.stride
      let out_of_bounds :=
        if e.direction = .POSITIVE then next > e.stream_end_block
        else next < e.stream_end_block
      if out_of_bounds then
        let e1 := { e with active := false }
        ({ s with stream_table := upd s.stream_table idx e1 }, qi, false)
      else if is_at_stride_boundary e ∧ i > 0 then (s, qi, true)
      else
        let ratio := env.mshr_occupancy qi
        if ratio > mkRat 3 4 then (s, qi + 1, false)
        else if env.line_ok qi then
          let e1 :=
            { e with
              current_prefetch_block := next,
              stream_length := e.stream_length + 1,
              consistent_stride_count := e.consistent_stride_count + 1 }
          let s1 := { s with stream_table := upd s.stream_table idx e1 }
          let s2 :=
            if e1.stream_length % 8 = 0 then update_stream_classification s1 (idx : Int)
            else s1
          gen_loop env idx remaining (i + 1) (qi + 1) s2
        else (s, qi + 1, false)

def generate_prefetches (env : GenEnv) (s : TransformerState) (idx : Nat) (qi : Nat) :
    TransformerState × Nat :=
  let e := s.stream_table idx
  if ¬ e.valid ∨ ¬ e.active then (s, qi)
  else
    let phase_degree := s.phase_state.current_prefetch_degree
    let class_degree := get_prefetch_degree_for_class e.stream_class
    let safe_lookahead := get_safe_lookahead e
    let actual_degree := min (min phase_degree class_degree) safe_lookahead
    let actual_degree :=
      if s.phase_state.in_phase_transition then min actual_degree MIN_PREFETCH_DEGREE
      else actual_degree
    let r := gen_loop env idx actual_degree 0 qi s
    if r.2.2 then
      let e2 := r.1.stream_table idx
      let e3 := { e2 with last_trigger_timestamp := r.1.current_timestamp }
      ({ r.1 with stream_table := upd r.1.stream_table idx e3 }, r.2.1)
    else (r.1, r.2.1)

/-! ### Transformer: stream creation and re-launch (lines 755-841) -/

def create_stream (env : GenEnv) (s : TransformerState) (trained : TrainingEntry)
    (qi : Nat) : TransformerState × Nat :=
  let r := allocate_stream_entry s
  let s0 := r.1
  let idx := r.2
  if idx < 0 then (s0, qi)
  else
    let i := idx.toNat
    let old := s0.stream_table i
    let new_end := trained.last_miss_block + trained.direction.toInt * trained.stride * 64
    let e :=
      { old with
        valid := true, active := true,
        direction := trained.direction, stride := trained.stride,
        last_trigger_timestamp := s0.current_timestamp, stream_length := 0,
        reactivation_count := 0, consistent_stride_count := 0,
        confidence_score := max 1 trained.pattern_confidence,
        stream_start_block := trained.last_miss_block,
        current_prefetch_block := trained.last_miss_block,
        stream_end_block := new_end }
    let e1 := { e with stream_class := classify_stream e }
    let s1 := { s0 with stream_table := upd s0.stream_table i e1 }
    let rg := find_or_create_stream_group s1 e1.direction e1.stride
    let s2 := add_stream_to_group rg.1 (i : Int) (rg.2 : Int)
    generate_prefetches env s2 i qi

def reactivate_stream (env : GenEnv) (s : TransformerState) (idx : Nat)
    (trigger_block : Int) (qi : Nat) : TransformerState × Nat :=
  let e := s.stream_table idx
  let e1 :=
    { e with
      active := true, last_trigger_timestamp := s.current_timestamp,
      reactivation_count := e.reactivation_count + 1,
      current_prefetch_block := trigger_block,
      confidence_score := min (e.confidence_score + CONFIDENCE_BOOST_ON_REUSE) MAX_CONFIDENCE }
  let end_offset := e1.direction.toInt * e1.stride * 64
  let new_end := trigger_block + end_offset
  let e2 :=
    if e1.direction = .POSITIVE then
      if new_end > e1.stream_end_block then { e1 with stream_end_block := new_end } else e1
    else
      if new_end < e1.stream_end_block then { e1 with stream_end_block := new_end } else e1
  let s1 := { s with stream_table := upd s.stream_table idx e2 }
  let s2 :=
    if e2.group_id < 0 then
      let rg := find_or_create_stream_group s1 e2.direction e2.stride
      add_stream_to_group rg.1 (idx : Int) (rg.2 : Int)
    else s1
  generate_prefetches env s2 idx qi

def try_relaunch_stream (env : GenEnv) (s : TransformerState) (miss_block : Int)
    (dir : StreamDirection) (stride : Int) (qi : Nat) :
    TransformerState × Nat × Bool :=
  let region := compute_region_base miss_block
  let m := find_matching_inactive_stream s dir stride region
  if m ≥ 0 then
    let r := reactivate_stream env s m.toNat miss_block qi
    (r.1, r.2, true)
  else (s, qi, false)

/-! ### Transformer: host interface (lines 974-1059) -/

/-- Result of `prefetcher_cache_operate`: final state, next oracle index, and
the returned metadata word. -/
structure TransformerOpOut where
  st : TransformerState
  qi : Nat
  meta : Nat

def transformer_cache_operate (env : GenEnv) (addr ip : Nat) (cache_hit useful_prefetch : Bool)
    (metadata_in qi : Nat) (s : TransformerState) : TransformerOpOut :=
  if cache_hit then ⟨s, qi, metadata_in⟩
  else
    let s := { s with current_timestamp := s.current_timestamp + 1 }
    let s := transformer_update_phase s false
    let s := { s with cleanup_counter := s.cleanup_counter + 1 }
    let s :=
      if s.cleanup_counter ≥ CLEANUP_INTERVAL then
        { remove_dead_streams s with cleanup_counter := 0 }
      else s
    let miss_block : Int := ((addr >>> LOG2_BLOCK_SIZE : Nat) : Int)
    let region_base := compute_region_base miss_block
    let si := find_stream_for_block s miss_block
    if si ≥ 0 then
      let i := si.toNat
      let e := s.stream_table i
      let e :=
        { e with
          last_trigger_timestamp := s.current_timestamp,
          accesses_in_window := e.accesses_in_window + 1 }
      let e :=
        if e.active then e
        else { e with active := true, reactivation_count := e.reactivation_count + 1 }
      let s := { s with stream_table := upd s.stream_table i e }
      let s := reinforce_stream_confidence s si
      let r := generate_prefetches env s i qi
      ⟨r.1, r.2, metadata_in⟩
    else
      let ti := find_training_entry s region_base
      let at0 := if ti < 0 then allocate_training_entry s region_base else (s, ti.toNat)
      let s := at0.1
      let t := at0.2
      let s := update_training_entry s t miss_block
      let trained := s.training_table t
      let ready := trained.miss_count ≥ CONFIRMATION_THRESHOLD ∨
        (trained.miss_count ≥ 2 ∧ can_fast_track_training trained = true)
      if ready ∧ trained.direction ≠ .UNKNOWN ∧ trained.stride ≥ 1 then
        let rl := try_relaunch_stream env s miss_block trained.direction trained.stride qi
        let cr := if rl.2.2 then (rl.1, rl.2.1) else create_stream env rl.1 trained rl.2.1
        let s2 := cr.1
        let tt := s2.training_table t
        let s3 := { s2 with training_table := upd s2.training_table t { tt with valid := false } }
        ⟨s3, cr.2, metadata_in⟩
      else ⟨s, qi, metadata_in⟩

def transformer_cache_fill (addr : Nat) (set way : Int) (prefetch : Bool)
    (evicted_addr metadata_in : Nat) (s : TransformerState) : TransformerState × Nat :=
  (s, metadata_in)

def transformer_cycle_operate (env : GenEnv) (s : TransformerState) (qi : Nat) :
    TransformerState × Nat :=
  (List.range STREAM_TABLE_SIZE).foldl
    (fun r i =>
      if (r.1.stream_table i).valid ∧ (r.1.stream_table i).active then
        generate_prefetches env r.1 i r.2
      else r)
    (s, qi)

/-! ### Claims C8 and C10: metadata and hit-path behaviour of the transformer -/

/-- Claim C8: on a cache hit, `prefetcher_cache_operate` of the transformer
returns `metadata_in` unchanged and leaves the entire internal state (training
table, streams, groups, pattern history, phase state, timestamps) and the
external-query cursor untouched: the hit path returns before any mutation. -/
theorem C8_hit_path_frame (env : GenEnv) (addr ip : Nat) (useful_prefetch : Bool)
    (metadata_in qi : Nat) (s : TransformerState) :
    transformer_cache_operate env addr ip true useful_prefetch metadata_in qi s
      = ⟨s, qi, metadata_in⟩ := rfl

/-- Claim C10: on every path — hit or miss, any access type, any metadata
word — the transformer's `prefetcher_cache_operate` returns exactly
`metadata_in`; it never modifies the metadata word, so bits 30 and 31 of the
return value equal those of `metadata_in` and source tagging is performed
only by the selector. -/
theorem C10_metadata_identity (env : GenEnv) (addr ip : Nat)
    (cache_hit useful_prefetch : Bool) (metadata_in qi : Nat) (s : TransformerState) :
    (transformer_cache_operate env addr ip cache_hit useful_prefetch metadata_in qi
        s).meta = metadata_in := by
  simp only [transformer_cache_operate]
  split_ifs <;> rfl

/-! ### Claim C4: the stream/group membership invariant -/

/-- Constant-environment oracle: MSHR occupancy pinned at 1.0 (above the 0.75
threshold), so `generate_prefetches` issues nothing during the counterexample
run. -/
def c4_env : GenEnv := ⟨fun _ => 1, fun _ => false⟩

/-- Nine concurrent stride-1 streams at widely separated bases, three misses
each (block numbers `10000·k, +1, +2`, addresses scaled by the 64-byte block
size): each triple confirms a stream, and the ninth stream overflows the
8-entry member list of the single (POSITIVE, stride 1) group. -/
def c4_misses : List Nat :=
  (List.range 9).flatMap (fun k =>
    [64 * (10000 * (k + 1)), 64 * (10000 * (k + 1) + 1), 64 * (10000 * (k + 1) + 2)])

def c4_run : TransformerState :=
  (c4_misses.foldl
    (fun acc a =>
      let r := transformer_cache_operate c4_env a 0 false false 0 acc.2 acc.1
      (r.st, r.qi))
    (transformer_init, 0)).1

/-- The claimed invariant, decidable on a concrete state: every valid stream
with `group_id ≥ 0` references a valid group whose member list contains the
stream's index exactly once, and every group's `member_count` equals its
number of non-negative slots. -/
def c4_claim_inv (s : TransformerState) : Bool :=
  ((List.range STREAM_TABLE_SIZE).all (fun i =>
    let e := s.stream_table i
    !(e.valid && decide (0 ≤ e.group_id)) ||
      (decide (e.group_id < (MAX_STREAM_GROUPS : Int)) &&
       (s.stream_groups e.group_id.toNat).valid &&
       (((List.range MAX_STREAMS_PER_GROUP).filter
          (fun j => (s.stream_groups e.group_id.toNat).members j == (i : Int))).length
         == 1)))) &&
  ((List.range MAX_STREAM_GROUPS).all (fun g =>
    (s.stream_groups g).member_count ==
      ((List.range MAX_STREAMS_PER_GROUP).filter
        (fun j => decide (0 ≤ (s.stream_groups g).members j))).length))

set_option maxRecDepth 100000 in
/-- Claim C4 (counterexample): after the 27-miss sequence `c4_misses` the
ninth stream (index 8) is valid with `group_id = 0` but appears in no member
list — `add_stream_to_group` found the group full and recorded only the
back-reference — so the claimed invariant fails on a reachable state. -/
theorem C4_counterexample :
    c4_claim_inv c4_run = false ∧
      (c4_run.stream_table 8).valid = true ∧
      (c4_run.stream_table 8).group_id = 0 ∧
      ((List.range MAX_STREAMS_PER_GROUP).filter
        (fun j => (c4_run.stream_groups 0).members j == (8 : Int))).length = 0 := by
  refine ⟨by decide, by decide, by decide, by decide⟩

/-- The amended stream/group integrity invariant.
(a) every non-negative member slot points to a valid stream, inside the
table, whose `group_id` is that group, and the group is valid;
(b) the non-negative slots of a group are pairwise distinct;
(c) `member_count` equals the number of non-negative slots;
(d) invalid streams carry `group_id = -1`;
(e) a valid stream's non-negative `group_id` is inside the group table. -/
def GroupInv (s : TransformerState) : Prop :=
  (∀ g, g < MAX_STREAM_GROUPS → ∀ j, j < MAX_STREAMS_PER_GROUP →
    0 ≤ (s.stream_groups g).members j →
    (s.stream_groups g).valid = true ∧
    (s.stream_groups g).members j < (STREAM_TABLE_SIZE : Int) ∧
    (s.stream_table ((s.stream_groups g).members j).toNat).valid = true ∧
    (s.stream_table ((s.stream_groups g).members j).toNat).group_id = (g : Int)) ∧
  (∀ g, g < MAX_STREAM_GROUPS → ∀ j1, j1 < MAX_STREAMS_PER_GROUP →
    ∀ j2, j2 < MAX_STREAMS_PER_GROUP → j1 ≠ j2 →
    0 ≤ (s.stream_groups g).members j1 →
    (s.stream_groups g).members j1 ≠ (s.stream_groups g).members j2) ∧
  (∀ g, g < MAX_STREAM_GROUPS →
    (s.stream_groups g).member_count
      = (List.range MAX_STREAMS_PER_GROUP).countP
          (fun j => decide (0 ≤ (s.stream_groups g).members j))) ∧
  (∀ i, i < STREAM_TABLE_SIZE → (s.stream_table i).valid = false →
    (s.stream_table i).group_id = -1) ∧
  (∀ i, i < STREAM_TABLE_SIZE → (s.stream_table i).valid = true →
    0 ≤ (s.stream_table i).group_id →
    (s.stream_table i).group_id < (MAX_STREAM_GROUPS : Int))

/-- `GroupInv` only looks at stream `valid`/`group_id` and group
`valid`/`member_count`/`members`. -/
theorem groupInv_transport (s s' : TransformerState)
    (hs : ∀ i, (s'.stream_table i).valid = (s.stream_table i).valid ∧
      (s'.stream_table i).group_id = (s.stream_table i).group_id)
    (hg : ∀ g, (s'.stream_groups g).valid = (s.stream_groups g).valid ∧
      (s'.stream_groups g).member_count = (s.stream_groups g).member_count ∧
      ∀ j, (s'.stream_groups g).members j = (s.stream_groups g).members j)
    (h : GroupInv s) : GroupInv s' := by
  obtain ⟨ha, hb, hc, hd, he⟩ := h
  refine ⟨?_, ?_, ?_, ?_, ?_⟩
  · intro g hgn j hj hm
    rw [(hg g).2.2 j] at hm ⊢
    rw [(hg g).1, (hs _).1, (hs _).2]
    exact ha g hgn j hj hm
  · intro g hgn j1 h1 j2 h2 hne hm
    rw [(hg g).2.2 j1] at hm ⊢
    rw [(hg g).2.2 j2]
    exact hb g hgn j1 h1 j2 h2 hne hm
  · intro g hgn
    rw [(hg g).2.1]
    have : (fun j => decide (0 ≤ (s'.stream_groups g).members j))
        = (fun j => decide (0 ≤ (s.stream_groups g).members j)) := by
      funext j
      rw [(hg g).2.2 j]
    rw [this]
    exact hc g hgn
  · intro i hi hv
    rw [(hs i).2]
    rw [(hs i).1] at hv
    exact hd i hi hv
  · intro i hi hv
    rw [(hs i).2]
    rw [(hs i).1] at hv
    exact he i hi hv

theorem groupInv_init : GroupInv transformer_init := by
  have hmem : ∀ g j, (transformer_init.stream_groups g).members j = -1 := fun _ _ => rfl
  have hgid : ∀ i, (transformer_init.stream_table i).group_id = -1 := fun _ => rfl
  refine ⟨?_, ?_, ?_, ?_, ?_⟩
  · intro g hg j hj hm
    rw [hmem g j] at hm
    exact absurd hm (by decide)
  · intro g hg j1 h1 j2 h2 hne hm
    rw [hmem g j1] at hm
    exact absurd hm (by decide)
  · intro g hg
    show (0 : Nat) = _
    simp [hmem]
  · intro i hi hv
    exact hgid i
  · intro i hi hv h0
    rw [hgid i] at h0
    exact absurd h0 (by decide)

/-- Agreement of two states on every field inspected by `GroupInv`. -/
def SFrame (s s' : TransformerState) : Prop :=
  (∀ i, (s'.stream_table i).valid = (s.stream_table i).valid ∧
    (s'.stream_table i).group_id = (s.stream_table i).group_id) ∧
  (∀ g, (s'.stream_groups g).valid = (s.stream_groups g).valid ∧
    (s'.stream_groups g).member_count = (s.stream_groups g).member_count ∧
    ∀ j, (s'.stream_groups g).members j = (s.stream_groups g).members j)

theorem sframe_refl (s : TransformerState) : SFrame s s :=
  ⟨fun _ => ⟨rfl, rfl⟩, fun _ => ⟨rfl, rfl, fun _ => rfl⟩⟩

theorem sframe_trans {s1 s2 s3 : TransformerState} (h12 : SFrame s1 s2)
    (h23 : SFrame s2 s3) : SFrame s1 s3 := by
  refine ⟨fun i => ?_, fun g => ?_⟩
  · exact ⟨(h23.1 i).1.trans (h12.1 i).1, (h23.1 i).2.trans (h12.1 i).2⟩
  · exact ⟨(h23.2 g).1.trans (h12.2 g).1, (h23.2 g).2.1.trans (h12.2 g).2.1,
      fun j => ((h23.2 g).2.2 j).trans ((h12.2 g).2.2 j)⟩

theorem groupInv_of_sframe {s s' : TransformerState} (hf : SFrame s s')
    (h : GroupInv s) : GroupInv s' :=
  groupInv_transport s s' hf.1 hf.2 h

/-- A stream-table write that keeps `valid` and `group_id` is invisible to
`GroupInv`. -/
theorem sframe_upd_stream (s : TransformerState) (i : Nat) (e1 : TransformerStreamEntry)
    (hv : e1.valid = (s.stream_table i).valid)
    (hgid : e1.group_id = (s.stream_table i).group_id) :
    SFrame s { s with stream_table := upd s.stream_table i e1 } := by
  refine ⟨fun j => ?_, fun g => ⟨rfl, rfl, fun _ => rfl⟩⟩
  show ((if j = i then e1 else s.stream_table j).valid = (s.stream_table j).valid ∧
    (if j = i then e1 else s.stream_table j).group_id = (s.stream_table j).group_id)
  split_ifs with h
  · subst h; exact ⟨hv, hgid⟩
  · exact ⟨rfl, rfl⟩

/-- A group write that keeps `valid`, `member_count` and `members` is
invisible to `GroupInv`. -/
theorem sframe_upd_group (s : TransformerState) (g0 : Nat) (g1 : StreamGroup)
    (hv : g1.valid = (s.stream_groups g0).valid)
    (hc : g1.member_count = (s.stream_groups g0).member_count)
    (hm : ∀ j, g1.members j = (s.stream_groups g0).members j) :
    SFrame s { s with stream_groups := upd s.stream_groups g0 g1 } := by
  refine ⟨fun j => ⟨rfl, rfl⟩, fun g => ?_⟩
  show ((if g = g0 then g1 else s.stream_groups g).valid = (s.stream_groups g).valid ∧
    (if g = g0 then g1 else s.stream_groups g).member_count = (s.stream_groups g).member_count ∧
    ∀ j, (if g = g0 then g1 else s.stream_groups g).members j = (s.stream_groups g).members j)
  split_ifs with h
  · subst h; exact ⟨hv, hc, hm⟩
  · exact ⟨rfl, rfl, fun _ => rfl⟩

theorem sframe_record_pattern (s : TransformerState) (e : TransformerStreamEntry) :
    SFrame s (record_pattern s e) :=
  ⟨fun _ => ⟨rfl, rfl⟩, fun _ => ⟨rfl, rfl, fun _ => rfl⟩⟩

theorem sframe_update_phase (s : TransformerState) (b : Bool) :
    SFrame s (transformer_update_phase s b) :=
  ⟨fun _ => ⟨rfl, rfl⟩, fun _ => ⟨rfl, rfl, fun _ => rfl⟩⟩

theorem sframe_update_training (s : TransformerState) (idx : Nat) (mb : Int) :
    SFrame s (update_training_entry s idx mb) := by
  simp only [update_training_entry]
  split_ifs <;> exact ⟨fun _ => ⟨rfl, rfl⟩, fun _ => ⟨rfl, rfl, fun _ => rfl⟩⟩

theorem sframe_allocate_training (s : TransformerState) (rb : Int) :
    SFrame s (allocate_training_entry s rb).1 := by
  simp only [allocate_training_entry]
  split_ifs <;> exact ⟨fun _ => ⟨rfl, rfl⟩, fun _ => ⟨rfl, rfl, fun _ => rfl⟩⟩

theorem sframe_upd_both (s : TransformerState) (i : Nat) (e1 : TransformerStreamEntry)
    (g0 : Nat) (g1 : StreamGroup)
    (hv : e1.valid = (s.stream_table i).valid)
    (hgid : e1.group_id = (s.stream_table i).group_id)
    (hgv : g1.valid = (s.stream_groups g0).valid)
    (hgc : g1.member_count = (s.stream_groups g0).member_count)
    (hgm : ∀ j, g1.members j = (s.stream_groups g0).members j) :
    SFrame s { s with stream_table := upd s.stream_table i e1,
                      stream_groups := upd s.stream_groups g0 g1 } := by
  refine ⟨fun j => ?_, fun g => ?_⟩
  · show ((if j = i then e1 else s.stream_table j).valid = (s.stream_table j).valid ∧
      (if j = i then e1 else s.stream_table j).group_id = (s.stream_table j).group_id)
    split_ifs with h
    · subst h; exact ⟨hv, hgid⟩
    · exact ⟨rfl, rfl⟩
  · show ((if g = g0 then g1 else s.stream_groups g).valid = (s.stream_groups g).valid ∧
      (if g = g0 then g1 else s.stream_groups g).member_count = (s.stream_groups g).member_count ∧
      ∀ j, (if g = g0 then g1 else s.stream_groups g).members j = (s.stream_groups g).members j)
    split_ifs with h
    · subst h; exact ⟨hgv, hgc, hgm⟩
    · exact ⟨rfl, rfl, fun _ => rfl⟩

theorem sframe_reinforce (s : TransformerState) (i : Int) :
    SFrame s (reinforce_stream_confidence s i) := by
  simp only [reinforce_stream_confidence]
  split_ifs <;>
    first
      | exact sframe_refl s
      | exact sframe_upd_stream s i.toNat _ (by rfl) (by rfl)
      | exact sframe_upd_both s i.toNat _ _ _ (by rfl) (by rfl) (by rfl) (by rfl)
          (fun _ => by rfl)

theorem sframe_classify (s : TransformerState) (i : Int) :
    SFrame s (update_stream_classification s i) := by
  simp only [update_stream_classification]
  split_ifs <;>
    first
      | exact sframe_refl s
      | exact sframe_upd_stream s i.toNat _ (by rfl) (by rfl)
      | exact sframe_upd_both s i.toNat _ _ _ (by rfl) (by rfl) (by rfl) (by rfl)
          (fun _ => by rfl)

theorem sframe_gen_loop (env : GenEnv) (idx : Nat) :
    ∀ (remaining i qi : Nat) (s : TransformerState),
      SFrame s (gen_loop env idx remaining i qi s).1 := by
  intro remaining
  induction remaining with
  | zero => intro i qi s; exact sframe_refl s
  | succ n ih =>
    intro i qi s
    simp only [gen_loop]
    split_ifs <;>
      first
        | exact sframe_refl s
        | exact sframe_upd_stream s idx _ (by rfl) (by rfl)
        | exact sframe_trans (sframe_upd_stream s idx _ (by rfl) (by rfl))
            (sframe_trans (sframe_classify _ _) (ih _ _ _))
        | exact sframe_trans (sframe_upd_stream s idx _ (by rfl) (by rfl)) (ih _ _ _)

theorem sframe_generate (env : GenEnv) (s : TransformerState) (idx qi : Nat) :
    SFrame s (generate_prefetches env s idx qi).1 := by
  simp only [generate_prefetches]
  split_ifs <;>
    first
      | exact sframe_refl s
      | exact sframe_gen_loop env idx _ 0 qi s
      | exact sframe_trans (sframe_gen_loop env idx _ 0 qi s)
          (sframe_upd_stream _ idx _ (by rfl) (by rfl))

theorem first_idx_spec (n : Nat) (p : Nat → Bool) :
    (first_idx n p = -1 ∧ ∀ k, k < n → p k = false) ∨
      ∃ k : Nat, k < n ∧ p k = true ∧ first_idx n p = (k : Int) := by
  unfold first_idx
  cases hf : (List.range n).find? p with
  | none =>
    refine Or.inl ⟨rfl, fun k hk => ?_⟩
    have := List.find?_eq_none.mp hf k (List.mem_range.mpr hk)
    simpa using this
  | some i =>
    refine Or.inr ⟨i, ?_, ?_, rfl⟩
    · exact List.mem_range.mp (List.mem_of_find?_eq_some hf)
    · exact List.find?_some hf

theorem countP_upd_range (n : Nat) (f : Nat → Int) (j : Nat) (hj : j < n) (x : Int)
    (p : Int → Bool) :
    (List.range n).countP (fun k => p (upd f j x k)) + (if p (f j) = true then 1 else 0)
      = (List.range n).countP (fun k => p (f k)) + (if p x = true then 1 else 0) := by
  induction n with
  | zero => omega
  | succ n ih =>
    rw [List.range_succ, List.countP_append, List.countP_append]
    by_cases hjn : j = n
    · subst hjn
      have hcong : (List.range j).countP (fun k => p (upd f j x k))
          = (List.range j).countP (fun k => p (f k)) := by
        apply List.countP_congr
        intro k hk
        have : k ≠ j := by
          have := List.mem_range.mp hk
          omega
        simp [upd, this]
      have hupd : upd f j x j = x := by simp [upd]
      simp only [hcong, List.countP_cons, List.countP_nil, hupd]
      split_ifs <;> omega
    · have hjlt : j < n := by omega
      have hupd : upd f j x n = f n := by simp [upd, Ne.symm hjn]
      have := ih hjlt
      simp only [List.countP_cons, List.countP_nil, hupd]
      split_ifs at * <;> omega

theorem countP_le_one_of_unique (n : Nat) (p : Nat → Bool)
    (h : ∀ j1, j1 < n → ∀ j2, j2 < n → p j1 = true → p j2 = true → j1 = j2) :
    (List.range n).countP p ≤ 1 := by
  induction n with
  | zero => simp
  | succ n ih =>
    rw [List.range_succ, List.countP_append]
    by_cases hp : p n = true
    · have hz : (List.range n).countP p = 0 := by
        rw [List.countP_eq_zero]
        intro a ha hpa
        have han := List.mem_range.mp ha
        have := h a (by omega) n (by omega) hpa hp
        omega
      simp [hz, List.countP_cons, hp]
    · have hb : (List.range n).countP p ≤ 1 := by
        apply ih
        intro j1 h1 j2 h2 hp1 hp2
        exact h j1 (by omega) j2 (by omega) hp1 hp2
      simp only [List.countP_cons, List.countP_nil, hp]
      simpa using hb

theorem countP_pos_of_mem (n k : Nat) (p : Nat → Bool) (hk : k < n) (hp : p k = true) :
    1 ≤ (List.range n).countP p := by
  rw [Nat.one_le_iff_ne_zero]
  intro hz
  rw [List.countP_eq_zero] at hz
  exact hz k (List.mem_range.mpr hk) hp

/-- `i` appears in no member slot of any group. -/
def NotMember (s : TransformerState) (i : Nat) : Prop :=
  ∀ g, g < MAX_STREAM_GROUPS → ∀ j, j < MAX_STREAMS_PER_GROUP →
    (s.stream_groups g).members j ≠ (i : Int)

theorem notMember_of_invalid {s : TransformerState} {i : Nat} (h : GroupInv s)
    (hv : (s.stream_table i).valid = false) : NotMember s i := by
  intro g hg j hj hm
  have h0 : (0 : Int) ≤ (s.stream_groups g).members j := by rw [hm]; exact Int.ofNat_nonneg i
  obtain ⟨_, _, hval, _⟩ := h.1 g hg j hj h0
  rw [hm] at hval
  simp only [Int.toNat_ofNat] at hval
  rw [hval] at hv
  cases hv

theorem notMember_of_gid_neg {s : TransformerState} {i : Nat} (h : GroupInv s)
    (hgid : (s.stream_table i).group_id < 0) : NotMember s i := by
  intro g hg j hj hm
  have h0 : (0 : Int) ≤ (s.stream_groups g).members j := by rw [hm]; exact Int.ofNat_nonneg i
  obtain ⟨_, _, _, hid⟩ := h.1 g hg j hj h0
  rw [hm] at hid
  simp only [Int.toNat_ofNat] at hid
  rw [hid] at hgid
  exact absurd hgid (by omega)

theorem victim_go_range (s : TransformerState) :
    ∀ (l : List Nat) (best : Int) (cur : Option Int),
      victim_go s l best cur = best ∨ ∃ i ∈ l, victim_go s l best cur = (i : Int) := by
  intro l
  induction l with
  | nil => intro best cur; exact Or.inl rfl
  | cons a l ih =>
    intro best cur
    simp only [victim_go]
    split_ifs with h1 h2
    · exact Or.inr ⟨a, List.mem_cons_self a l, rfl⟩
    · rcases ih (a : Int) (some (compute_eviction_priority s (a : Int))) with h | ⟨i, hi, he⟩
      · exact Or.inr ⟨a, List.mem_cons_self a l, h⟩
      · exact Or.inr ⟨i, List.mem_cons_of_mem a hi, he⟩
    · rcases ih best cur with h | ⟨i, hi, he⟩
      · exact Or.inl h
      · exact Or.inr ⟨i, List.mem_cons_of_mem a hi, he⟩

theorem group_evict_go_range (g : Nat → StreamGroup) :
    ∀ (l : List Nat) (best : Nat) (cur : Option Nat),
      group_evict_go g l best cur = best ∨ ∃ i ∈ l, group_evict_go g l best cur = i := by
  intro l
  induction l with
  | nil => intro best cur; exact Or.inl rfl
  | cons a l ih =>
    intro best cur
    simp only [group_evict_go]
    split_ifs with h1
    · rcases ih a (some ((g a).last_seen_timestamp)) with h | ⟨i, hi, he⟩
      · exact Or.inr ⟨a, List.mem_cons_self a l, h⟩
      · exact Or.inr ⟨i, List.mem_cons_of_mem a hi, he⟩
    · rcases ih best cur with h | ⟨i, hi, he⟩
      · exact Or.inl h
      · exact Or.inr ⟨i, List.mem_cons_of_mem a hi, he⟩

theorem clear_member_step_groups (gi : Nat) (st : TransformerState) (j : Nat) :
    ∀ g, ((clear_member_step gi st j).stream_groups g) = st.stream_groups g := by
  intro g
  simp only [clear_member_step]
  split_ifs <;> rfl

theorem upd_lookup {α : Type} (f : Nat → α) (k : Nat) (x : α) (i : Nat) :
    upd f k x i = if i = k then x else f i := rfl

theorem clear_member_step_valid (gi : Nat) (st : TransformerState) (j : Nat) :
    ∀ i, ((clear_member_step gi st j).stream_table i).valid = (st.stream_table i).valid := by
  intro i
  simp only [clear_member_step]
  split_ifs with h
  · simp only [upd_lookup]
    split_ifs with h2
    · subst h2; rfl
    · rfl
  · rfl

theorem clear_member_step_gid (gi : Nat) (st : TransformerState) (j : Nat) :
    ∀ i, ((clear_member_step gi st j).stream_table i).group_id = (st.stream_table i).group_id ∨
      ((clear_member_step gi st j).stream_table i).group_id = -1 := by
  intro i
  simp only [clear_member_step]
  split_ifs with h
  · simp only [upd_lookup]
    split_ifs with h2
    · exact Or.inr rfl
    · exact Or.inl rfl
  · exact Or.inl rfl

theorem clear_member_step_gid_eq (gi : Nat) (st : TransformerState) (j : Nat) (i : Nat)
    (hne : (st.stream_groups gi).members j ≠ (i : Int)) :
    ((clear_member_step gi st j).stream_table i).group_id = (st.stream_table i).group_id := by
  simp only [clear_member_step]
  split_ifs with h
  · simp only [upd_lookup]
    split_ifs with h2
    · exfalso
      apply hne
      rw [h2]
      exact (Int.toNat_of_nonneg h.1).symm
    · rfl
  · rfl

theorem clear_members_go (s : TransformerState) (gi : Nat) :
    ∀ (l : List Nat) (st : TransformerState),
      (∀ g, st.stream_groups g = s.stream_groups g) →
      (∀ g, (l.foldl (clear_member_step gi) st).stream_groups g = s.stream_groups g) ∧
      (∀ i, ((l.foldl (clear_member_step gi) st).stream_table i).valid
        = (st.stream_table i).valid) ∧
      (∀ i, ((l.foldl (clear_member_step gi) st).stream_table i).group_id
          = (st.stream_table i).group_id ∨
        ((l.foldl (clear_member_step gi) st).stream_table i).group_id = -1) ∧
      (∀ i : Nat, (∀ j ∈ l, (s.stream_groups gi).members j ≠ (i : Int)) →
        ((l.foldl (clear_member_step gi) st).stream_table i).group_id
          = (st.stream_table i).group_id) := by
  intro l
  induction l with
  | nil =>
    intro st hg
    exact ⟨hg, fun _ => rfl, fun _ => Or.inl rfl, fun _ _ => rfl⟩
  | cons a l ih =>
    intro st hg
    have hg1 : ∀ g, (clear_member_step gi st a).stream_groups g = s.stream_groups g :=
      fun g => (clear_member_step_groups gi st a g).trans (hg g)
    obtain ⟨ihg, ihv, ihgid, ihid⟩ := ih (clear_member_step gi st a) hg1
    simp only [List.foldl_cons]
    refine ⟨ihg, ?_, ?_, ?_⟩
    · intro i
      exact (ihv i).trans (clear_member_step_valid gi st a i)
    · intro i
      rcases ihgid i with h | h
      · rcases clear_member_step_gid gi st a i with h2 | h2
        · exact Or.inl (h.trans h2)
        · exact Or.inr (h.trans h2)
      · exact Or.inr h
    · intro i hni
      have hna : (s.stream_groups gi).members a ≠ (i : Int) :=
        hni a (List.mem_cons_self a l)
      have hna' : (st.stream_groups gi).members a ≠ (i : Int) := by rw [hg gi]; exact hna
      have h1 := ihid i (fun j hj => hni j (List.mem_cons_of_mem a hj))
      exact h1.trans (clear_member_step_gid_eq gi st a i hna')

theorem clear_members_spec (s : TransformerState) (gi : Nat) :
    (∀ g, (clear_group_members s gi).stream_groups g = s.stream_groups g) ∧
    (∀ i, ((clear_group_members s gi).stream_table i).valid = (s.stream_table i).valid) ∧
    (∀ i, ((clear_group_members s gi).stream_table i).group_id
        = (s.stream_table i).group_id ∨
      ((clear_group_members s gi).stream_table i).group_id = -1) ∧
    (∀ i : Nat, (∀ j, j < MAX_STREAMS_PER_GROUP → (s.stream_groups gi).members j ≠ (i : Int)) →
      ((clear_group_members s gi).stream_table i).group_id = (s.stream_table i).group_id) := by
  obtain ⟨h1, h2, h3, h4⟩ :=
    clear_members_go s gi (List.range MAX_STREAMS_PER_GROUP) s (fun _ => rfl)
  refine ⟨h1, h2, h3, fun i hi => h4 i ?_⟩
  intro j hj
  exact hi j (List.mem_range.mp hj)

/-- Replacing a stream entry whose new `group_id` is `-1` preserves the
invariant as long as the index is in no member list. -/
theorem ginv_upd_stream_gidneg (s : TransformerState) (i : Nat)
    (e1 : TransformerStreamEntry) (hgid : e1.group_id = -1)
    (hnm : NotMember s i) (h : GroupInv s) :
    GroupInv { s with stream_table := upd s.stream_table i e1 } := by
  obtain ⟨ha, hb, hc, hd, he⟩ := h
  have hlook : ∀ m : Int, 0 ≤ m → m ≠ (i : Int) →
      (upd s.stream_table i e1) m.toNat = s.stream_table m.toNat := by
    intro m hm hne
    unfold upd
    split_ifs with hh
    · exfalso
      apply hne
      rw [← hh]
      exact (Int.toNat_of_nonneg hm).symm
    · rfl
  refine ⟨?_, hb, hc, ?_, ?_⟩
  · intro g hg j hj hm
    obtain ⟨hv, hlt, hsv, hid⟩ := ha g hg j hj hm
    have hne : (s.stream_groups g).members j ≠ (i : Int) := hnm g hg j hj
    rw [show ({ s with stream_table := upd s.stream_table i e1 } :
        TransformerState).stream_table = upd s.stream_table i e1 from rfl,
      hlook _ hm hne]
    exact ⟨hv, hlt, hsv, hid⟩
  · intro k hk
    show ((if k = i then e1 else s.stream_table k)).valid = false →
      ((if k = i then e1 else s.stream_table k)).group_id = -1
    split_ifs with hki
    · intro _; exact hgid
    · exact hd k hk
  · intro k hk
    show ((if k = i then e1 else s.stream_table k)).valid = true →
      0 ≤ ((if k = i then e1 else s.stream_table k)).group_id →
      ((if k = i then e1 else s.stream_table k)).group_id < (MAX_STREAM_GROUPS : Int)
    split_ifs with hki
    · intro _ h0
      rw [hgid] at h0
      exact absurd h0 (by decide)
    · exact he k hk

/-- Installing a freshly reset (member-less, valid) group preserves the
invariant. -/
theorem ginv_reset_group (s : TransformerState) (g0 : Nat)
    (dir : StreamDirection) (stride : Int) (ts : Nat) (h : GroupInv s) :
    GroupInv { s with stream_groups := upd s.stream_groups g0 (fresh_group dir stride ts) } := by
  obtain ⟨ha, hb, hc, hd, he⟩ := h
  have hsg : ∀ g, ({ s with stream_groups := upd s.stream_groups g0 (fresh_group dir stride ts) } :
      TransformerState).stream_groups g
      = if g = g0 then fresh_group dir stride ts else s.stream_groups g := fun _ => rfl
  have hfm : ∀ j, (fresh_group dir stride ts).members j = -1 := fun _ => rfl
  refine ⟨?_, ?_, ?_, hd, he⟩
  · intro g hg j hj hm
    rw [hsg] at hm ⊢
    split_ifs with hgg
    · rw [if_pos hgg, hfm] at hm
      exact absurd hm (by decide)
    · rw [if_neg hgg] at hm
      exact ha g hg j hj hm
  · intro g hg j1 h1 j2 h2 hne hm
    rw [hsg] at hm ⊢
    split_ifs with hgg
    · rw [if_pos hgg, hfm] at hm
      exact absurd hm (by decide)
    · rw [if_neg hgg] at hm
      exact hb g hg j1 h1 j2 h2 hne hm
  · intro g hg
    rw [hsg]
    split_ifs with hgg
    · simp [fresh_group]
    · exact hc g hg

theorem notMember_of_subset {s s' : TransformerState} {i : Nat}
    (hsub : ∀ g j, (s'.stream_groups g).members j = (s.stream_groups g).members j ∨
      (s'.stream_groups g).members j = -1)
    (h : NotMember s i) : NotMember s' i := by
  intro g hg j hj
  rcases hsub g j with hh | hh
  · rw [hh]; exact h g hg j hj
  · rw [hh]
    intro hc
    have : (0 : Int) ≤ -1 := by rw [hc]; exact Int.ofNat_nonneg i
    exact absurd this (by decide)

theorem upd_self {α : Type} (t : Nat → α) (i : Nat) (x : α) : upd t i x i = x :=
  if_pos rfl

theorem upd_ne {α : Type} (t : Nat → α) (i : Nat) (x : α) (j : Nat) (h : j ≠ i) :
    upd t i x j = t j := if_neg h

theorem upd_toNat_ne {α : Type} (t : Nat → α) (i : Nat) (x : α) (m : Int)
    (hm : 0 ≤ m) (hne : m ≠ (i : Int)) : upd t i x m.toNat = t m.toNat := by
  unfold upd
  split_ifs with h
  · exfalso
    apply hne
    rw [← h]
    exact (Int.toNat_of_nonneg hm).symm
  · rfl

/-- Attaching a valid stream to a group by back-reference only (the full-group
path of `add_stream_to_group`) preserves the invariant. -/
theorem ginv_upd_stream_attach (s : TransformerState) (i g0 : Nat)
    (e1 : TransformerStreamEntry) (hgid : e1.group_id = (g0 : Int))
    (hg : g0 < MAX_STREAM_GROUPS) (hval : e1.valid = true)
    (hnm : NotMember s i) (h : GroupInv s) :
    GroupInv { s with stream_table := upd s.stream_table i e1 } := by
  obtain ⟨ha, hb, hc, hd, he⟩ := h
  refine ⟨?_, hb, hc, ?_, ?_⟩
  · intro g hgn j hj hm
    obtain ⟨hv, hlt, hsv2, hid⟩ := ha g hgn j hj hm
    have hne : (s.stream_groups g).members j ≠ (i : Int) := hnm g hgn j hj
    show (s.stream_groups g).valid = true ∧ (s.stream_groups g).members j < _ ∧
      (upd s.stream_table i e1 ((s.stream_groups g).members j).toNat).valid = true ∧
      (upd s.stream_table i e1 ((s.stream_groups g).members j).toNat).group_id = (g : Int)
    rw [upd_toNat_ne _ _ _ _ hm hne]
    exact ⟨hv, hlt, hsv2, hid⟩
  · intro m hmn
    show (upd s.stream_table i e1 m).valid = false → (upd s.stream_table i e1 m).group_id = -1
    by_cases hmi : m = i
    · subst hmi
      rw [upd_self]
      intro hvf
      rw [hval] at hvf
      cases hvf
    · rw [upd_ne _ _ _ _ hmi]
      exact hd m hmn
  · intro m hmn
    show (upd s.stream_table i e1 m).valid = true → 0 ≤ (upd s.stream_table i e1 m).group_id →
      (upd s.stream_table i e1 m).group_id < (MAX_STREAM_GROUPS : Int)
    by_cases hmi : m = i
    · subst hmi
      rw [upd_self, hgid]
      intro _ _
      simp only [MAX_STREAM_GROUPS] at *
      omega
    · rw [upd_ne _ _ _ _ hmi]
      exact he m hmn

/-- Inserting a valid, nowhere-listed stream into an empty slot of a valid
group (the normal path of `add_stream_to_group`) preserves the invariant. -/
theorem ginv_add_member (s : TransformerState) (i g0 k : Nat)
    (hi : i < STREAM_TABLE_SIZE) (hg : g0 < MAX_STREAM_GROUPS)
    (hk : k < MAX_STREAMS_PER_GROUP)
    (hgv : (s.stream_groups g0).valid = true)
    (hsv : (s.stream_table i).valid = true)
    (hmemneg : (s.stream_groups g0).members k < 0)
    (hnm : NotMember s i)
    (g1 : StreamGroup) (e1 : TransformerStreamEntry)
    (hg1v : g1.valid = (s.stream_groups g0).valid)
    (hg1c : g1.member_count = (s.stream_groups g0).member_count + 1)
    (hg1m : g1.members = upd (s.stream_groups g0).members k (i : Int))
    (he1v : e1.valid = true) (he1g : e1.group_id = (g0 : Int))
    (h : GroupInv s) :
    GroupInv { s with stream_groups := upd s.stream_groups g0 g1,
                      stream_table := upd s.stream_table i e1 } := by
  obtain ⟨ha, hb, hc, hd, he⟩ := h
  refine ⟨?_, ?_, ?_, ?_, ?_⟩
  · intro g hgn j hj hm
    show (upd s.stream_groups g0 g1 g).valid = true ∧
      (upd s.stream_groups g0 g1 g).members j < (STREAM_TABLE_SIZE : Int) ∧
      (upd s.stream_table i e1 ((upd s.stream_groups g0 g1 g).members j).toNat).valid = true ∧
      (upd s.stream_table i e1 ((upd s.stream_groups g0 g1 g).members j).toNat).group_id
        = (g : Int)
    have hm' : 0 ≤ (upd s.stream_groups g0 g1 g).members j := hm
    by_cases hgg : g = g0
    · subst hgg
      rw [upd_self] at hm' ⊢
      rw [hg1m] at hm' ⊢
      by_cases hjk : j = k
      · subst hjk
        rw [upd_self] at hm' ⊢
        rw [hg1v]
        refine ⟨hgv, ?_, ?_, ?_⟩
        · simp only [STREAM_TABLE_SIZE] at *
          omega
        · rw [Int.toNat_ofNat, upd_self]
          exact he1v
        · rw [Int.toNat_ofNat, upd_self]
          exact he1g
      · rw [upd_ne _ _ _ _ hjk] at hm' ⊢
        obtain ⟨hv, hlt, hsv2, hid⟩ := ha g hg j hj hm'
        have hne : (s.stream_groups g).members j ≠ (i : Int) := hnm g hg j hj
        rw [upd_toNat_ne _ _ _ _ hm' hne, hg1v]
        exact ⟨hgv, hlt, hsv2, hid⟩
    · rw [upd_ne _ _ _ _ hgg] at hm' ⊢
      obtain ⟨hv, hlt, hsv2, hid⟩ := ha g hgn j hj hm'
      have hne : (s.stream_groups g).members j ≠ (i : Int) := hnm g hgn j hj
      rw [upd_toNat_ne _ _ _ _ hm' hne]
      exact ⟨hv, hlt, hsv2, hid⟩
  · intro g hgn j1 h1 j2 h2 hne hm
    show (upd s.stream_groups g0 g1 g).members j1 ≠ (upd s.stream_groups g0 g1 g).members j2
    have hm' : 0 ≤ (upd s.stream_groups g0 g1 g).members j1 := hm
    by_cases hgg : g = g0
    · subst hgg
      rw [upd_self] at hm' ⊢
      rw [hg1m] at hm' ⊢
      by_cases h1k : j1 = k
      · subst h1k
        have h2k : j2 ≠ j1 := fun hh => hne hh.symm
        rw [upd_self, upd_ne _ _ _ _ h2k]
        exact fun hh => (hnm g hg j2 h2) hh.symm
      · rw [upd_ne _ _ _ _ h1k] at hm' ⊢
        by_cases h2k : j2 = k
        · subst h2k
          rw [upd_self]
          exact hnm g hg j1 h1
        · rw [upd_ne _ _ _ _ h2k]
          exact hb g hg j1 h1 j2 h2 hne hm'
    · rw [upd_ne _ _ _ _ hgg] at hm' ⊢
      exact hb g hgn j1 h1 j2 h2 hne hm'
  · intro g hgn
    show (upd s.stream_groups g0 g1 g).member_count
      = (List.range MAX_STREAMS_PER_GROUP).countP
          (fun j => decide (0 ≤ (upd s.stream_groups g0 g1 g).members j))
    by_cases hgg : g = g0
    · subst hgg
      rw [upd_self, hg1c]
      have hmemfun : (fun j => decide (0 ≤ g1.members j))
          = (fun j => decide (0 ≤ upd (s.stream_groups g).members k (i : Int) j)) := by
        funext j
        rw [hg1m]
      rw [hmemfun]
      have hcount := countP_upd_range MAX_STREAMS_PER_GROUP (s.stream_groups g).members
        k hk (i : Int) (fun m => decide (0 ≤ m))
      have hneg2 : ¬ (0 ≤ (s.stream_groups g).members k) := by omega
      rw [if_neg (by simpa using hneg2), if_pos (by simp [Int.ofNat_nonneg])] at hcount
      have hold := hc g hg
      omega
    · rw [upd_ne _ _ _ _ hgg]
      exact hc g hgn
  · intro m hmn
    show (upd s.stream_table i e1 m).valid = false → (upd s.stream_table i e1 m).group_id = -1
    by_cases hmi : m = i
    · subst hmi
      rw [upd_self]
      intro hvf
      rw [he1v] at hvf
      cases hvf
    · rw [upd_ne _ _ _ _ hmi]
      exact hd m hmn
  · intro m hmn
    show (upd s.stream_table i e1 m).valid = true → 0 ≤ (upd s.stream_table i e1 m).group_id →
      (upd s.stream_table i e1 m).group_id < (MAX_STREAM_GROUPS : Int)
    by_cases hmi : m = i
    · subst hmi
      rw [upd_self, he1g]
      intro _ _
      simp only [MAX_STREAM_GROUPS] at *
      omega
    · rw [upd_ne _ _ _ _ hmi]
      exact he m hmn

theorem ginv_add (s : TransformerState) (i g0 : Nat)
    (hi : i < STREAM_TABLE_SIZE) (hg : g0 < MAX_STREAM_GROUPS)
    (hgv : (s.stream_groups g0).valid = true)
    (hsv : (s.stream_table i).valid = true)
    (hnm : NotMember s i)
    (h : GroupInv s) : GroupInv (add_stream_to_group s (i : Int) (g0 : Int)) := by
  have hG : ¬ ((g0 : Int) < 0 ∨ (g0 : Int) ≥ (MAX_STREAM_GROUPS : Int)) := by
    simp only [MAX_STREAM_GROUPS] at *
    omega
  have hS : ¬ ((i : Int) < 0 ∨ (i : Int) ≥ (STREAM_TABLE_SIZE : Int)) := by
    simp only [STREAM_TABLE_SIZE] at *
    omega
  simp only [add_stream_to_group, if_neg hG, if_neg hS, Int.toNat_ofNat]
  rcases first_idx_spec MAX_STREAMS_PER_GROUP
      (fun j => decide ((s.stream_groups g0).members j < 0)) with ⟨hneg, _⟩ | ⟨k, hk, hpk, heq⟩
  · rw [hneg]
    simp only [show ¬ ((-1 : Int) ≥ 0) from by decide, if_false]
    exact ginv_upd_stream_attach s i g0 _ (by rfl) hg (by exact hsv) hnm h
  · rw [heq]
    simp only [show ((k : Int) ≥ 0) from Int.ofNat_nonneg k, if_true, Int.toNat_ofNat]
    simp only [decide_eq_true_eq] at hpk
    exact ginv_add_member s i g0 k hi hg hk hgv hsv hpk hnm _ _ (by rfl) (by rfl) (by rfl)
      (by exact hsv) (by rfl) h
/-- Replacing a group by one with the same members and count (possibly
invalidated when empty) while detaching stream `i` not listed anywhere
preserves the invariant. -/
theorem ginv_detach_only (s : TransformerState) (i g0 : Nat)
    (hg : g0 < MAX_STREAM_GROUPS)
    (hnm : NotMember s i)
    (g2 : StreamGroup) (e1 : TransformerStreamEntry)
    (hg2m : ∀ j, g2.members j = (s.stream_groups g0).members j)
    (hg2c : g2.member_count = (s.stream_groups g0).member_count)
    (hg2v : g2.valid = (s.stream_groups g0).valid ∨ (s.stream_groups g0).member_count = 0)
    (he1g : e1.group_id = -1)
    (h : GroupInv s) :
    GroupInv { s with stream_groups := upd s.stream_groups g0 g2,
                      stream_table := upd s.stream_table i e1 } := by
  obtain ⟨ha, hb, hc, hd, he⟩ := h
  have hvalid2 : ∀ j, j < MAX_STREAMS_PER_GROUP → 0 ≤ g2.members j → g2.valid = true := by
    intro j hj hm
    rw [hg2m j] at hm
    rcases hg2v with hv | hz
    · rw [hv]
      exact (ha g0 hg j hj hm).1
    · exfalso
      have hcnt := hc g0 hg
      have hpos := countP_pos_of_mem MAX_STREAMS_PER_GROUP j
        (fun j => decide (0 ≤ (s.stream_groups g0).members j)) hj (by simpa using hm)
      omega
  refine ⟨?_, ?_, ?_, ?_, ?_⟩
  · intro g hgn j hj hm
    show (upd s.stream_groups g0 g2 g).valid = true ∧
      (upd s.stream_groups g0 g2 g).members j < (STREAM_TABLE_SIZE : Int) ∧
      (upd s.stream_table i e1 ((upd s.stream_groups g0 g2 g).members j).toNat).valid = true ∧
      (upd s.stream_table i e1 ((upd s.stream_groups g0 g2 g).members j).toNat).group_id
        = (g : Int)
    have hm' : 0 ≤ (upd s.stream_groups g0 g2 g).members j := hm
    by_cases hgg : g = g0
    · subst hgg
      rw [upd_self] at hm' ⊢
      have hv2 := hvalid2 j hj hm'
      rw [hg2m j] at hm' ⊢
      obtain ⟨_, hlt, hsv2, hid⟩ := ha g hg j hj hm'
      have hne : (s.stream_groups g).members j ≠ (i : Int) := hnm g hg j hj
      rw [upd_toNat_ne _ _ _ _ hm' hne]
      exact ⟨hv2, hlt, hsv2, hid⟩
    · rw [upd_ne _ _ _ _ hgg] at hm' ⊢
      obtain ⟨hv, hlt, hsv2, hid⟩ := ha g hgn j hj hm'
      have hne : (s.stream_groups g).members j ≠ (i : Int) := hnm g hgn j hj
      rw [upd_toNat_ne _ _ _ _ hm' hne]
      exact ⟨hv, hlt, hsv2, hid⟩
  · intro g hgn j1 h1 j2 h2 hne hm
    show (upd s.stream_groups g0 g2 g).members j1 ≠ (upd s.stream_groups g0 g2 g).members j2
    have hm' : 0 ≤ (upd s.stream_groups g0 g2 g).members j1 := hm
    by_cases hgg : g = g0
    · subst hgg
      rw [upd_self] at hm' ⊢
      rw [hg2m j1] at hm'
      rw [hg2m j1, hg2m j2]
      exact hb g hg j1 h1 j2 h2 hne hm'
    · rw [upd_ne _ _ _ _ hgg] at hm' ⊢
      exact hb g hgn j1 h1 j2 h2 hne hm'
  · intro g hgn
    show (upd s.stream_groups g0 g2 g).member_count
      = (List.range MAX_STREAMS_PER_GROUP).countP
          (fun j => decide (0 ≤ (upd s.stream_groups g0 g2 g).members j))
    by_cases hgg : g = g0
    · subst hgg
      rw [upd_self, hg2c]
      have hcong : (List.range MAX_STREAMS_PER_GROUP).countP
            (fun j => decide (0 ≤ g2.members j))
          = (List.range MAX_STREAMS_PER_GROUP).countP
            (fun j => decide (0 ≤ (s.stream_groups g).members j)) := by
        apply List.countP_congr
        intro a ha2
        rw [hg2m a]
      rw [hcong]
      exact hc g hg
    · rw [upd_ne _ _ _ _ hgg]
      exact hc g hgn
  · intro m hmn
    show (upd s.stream_table i e1 m).valid = false → (upd s.stream_table i e1 m).group_id = -1
    by_cases hmi : m = i
    · subst hmi
      rw [upd_self, he1g]
      intro _
      rfl
    · rw [upd_ne _ _ _ _ hmi]
      exact hd m hmn
  · intro m hmn
    show (upd s.stream_table i e1 m).valid = true → 0 ≤ (upd s.stream_table i e1 m).group_id →
      (upd s.stream_table i e1 m).group_id < (MAX_STREAM_GROUPS : Int)
    by_cases hmi : m = i
    · subst hmi
      rw [upd_self, he1g]
      intro _ _
      decide
    · rw [upd_ne _ _ _ _ hmi]
      exact he m hmn
/-- Clearing the one member slot holding stream `i`, decrementing the count
(invalidating the group only when it empties) and detaching `i` preserves the
invariant. -/
theorem ginv_remove_member (s : TransformerState) (i g0 k : Nat)
    (hg : g0 < MAX_STREAM_GROUPS) (hk : k < MAX_STREAMS_PER_GROUP)
    (hmk : (s.stream_groups g0).members k = (i : Int))
    (g2 : StreamGroup) (e1 : TransformerStreamEntry)
    (hg2m : ∀ j, g2.members j = upd (s.stream_groups g0).members k (-1) j)
    (hg2c : g2.member_count + 1 = (s.stream_groups g0).member_count)
    (hg2v : g2.valid = (s.stream_groups g0).valid ∨ g2.member_count = 0)
    (he1g : e1.group_id = -1)
    (h : GroupInv s) :
    GroupInv { s with stream_groups := upd s.stream_groups g0 g2,
                      stream_table := upd s.stream_table i e1 } := by
  obtain ⟨ha, hb, hc, hd, he⟩ := h
  have hmk0 : 0 ≤ (s.stream_groups g0).members k := by
    rw [hmk]
    exact Int.ofNat_nonneg i
  have hgi : (s.stream_table i).group_id = (g0 : Int) := by
    have hgidk := (ha g0 hg k hk hmk0).2.2.2
    rw [hmk] at hgidk
    simpa using hgidk
  have hcross : ∀ g, g < MAX_STREAM_GROUPS → ∀ j, j < MAX_STREAMS_PER_GROUP →
      (g ≠ g0 ∨ j ≠ k) → (s.stream_groups g).members j ≠ (i : Int) := by
    intro g hgn j hj hor hmeq
    have hm0 : 0 ≤ (s.stream_groups g).members j := by
      rw [hmeq]
      exact Int.ofNat_nonneg i
    by_cases hgg : g = g0
    · subst hgg
      have hjk : j ≠ k := by
        rcases hor with h' | h'
        · exact absurd rfl h'
        · exact h'
      have hneq := hb g hgn j hj k hk hjk hm0
      rw [hmeq, hmk] at hneq
      exact hneq rfl
    · have hid := (ha g hgn j hj hm0).2.2.2
      rw [hmeq] at hid
      simp only [Int.toNat_ofNat] at hid
      rw [hgi] at hid
      exact hgg (by exact_mod_cast hid.symm)
  have hcountk : decide (0 ≤ (s.stream_groups g0).members k) = true := by simpa using hmk0
  have hucount := countP_upd_range MAX_STREAMS_PER_GROUP (s.stream_groups g0).members k hk
    (-1) (fun m => decide (0 ≤ m))
  rw [if_pos hcountk, if_neg (by decide : ¬ (decide ((0:Int) ≤ -1) = true))] at hucount
  have hcnt0 := hc g0 hg
  have hnewcount : (List.range MAX_STREAMS_PER_GROUP).countP
      (fun j => decide (0 ≤ upd (s.stream_groups g0).members k (-1) j))
      = g2.member_count := by omega
  have hempty : g2.member_count = 0 → ∀ j, j < MAX_STREAMS_PER_GROUP →
      ¬ (0 ≤ g2.members j) := by
    intro hz j hj hm0
    have hdj : decide (0 ≤ upd (s.stream_groups g0).members k (-1) j) = true := by
      rw [← hg2m j]
      simpa using hm0
    have hpos := countP_pos_of_mem MAX_STREAMS_PER_GROUP j
      (fun j => decide (0 ≤ upd (s.stream_groups g0).members k (-1) j)) hj hdj
    omega
  have hvalid2 : ∀ j, j < MAX_STREAMS_PER_GROUP → 0 ≤ g2.members j → g2.valid = true := by
    intro j hj hm0
    rcases hg2v with hv | hz
    · rw [hv]
      by_cases hjk : j = k
      · exfalso
        rw [hg2m j, hjk, upd_self] at hm0
        exact absurd hm0 (by decide)
      · have hold : 0 ≤ (s.stream_groups g0).members j := by
          rw [hg2m j, upd_ne _ _ _ _ hjk] at hm0
          exact hm0
        exact (ha g0 hg j hj hold).1
    · exact absurd hm0 (hempty hz j hj)
  refine ⟨?_, ?_, ?_, ?_, ?_⟩
  · intro g hgn j hj hm
    show (upd s.stream_groups g0 g2 g).valid = true ∧
      (upd s.stream_groups g0 g2 g).members j < (STREAM_TABLE_SIZE : Int) ∧
      (upd s.stream_table i e1 ((upd s.stream_groups g0 g2 g).members j).toNat).valid = true ∧
      (upd s.stream_table i e1 ((upd s.stream_groups g0 g2 g).members j).toNat).group_id
        = (g : Int)
    have hm' : 0 ≤ (upd s.stream_groups g0 g2 g).members j := hm
    by_cases hgg : g = g0
    · subst hgg
      rw [upd_self] at hm' ⊢
      have hv2 := hvalid2 j hj hm'
      rw [hg2m j] at hm' ⊢
      by_cases hjk : j = k
      · subst hjk
        rw [upd_self] at hm'
        exact absurd hm' (by decide)
      · rw [upd_ne _ _ _ _ hjk] at hm' ⊢
        obtain ⟨_, hlt, hsv2, hid⟩ := ha g hg j hj hm'
        have hne : (s.stream_groups g).members j ≠ (i : Int) := hcross g hg j hj (Or.inr hjk)
        rw [upd_toNat_ne _ _ _ _ hm' hne]
        exact ⟨hv2, hlt, hsv2, hid⟩
    · rw [upd_ne _ _ _ _ hgg] at hm' ⊢
      obtain ⟨hv, hlt, hsv2, hid⟩ := ha g hgn j hj hm'
      have hne : (s.stream_groups g).members j ≠ (i : Int) := hcross g hgn j hj (Or.inl hgg)
      rw [upd_toNat_ne _ _ _ _ hm' hne]
      exact ⟨hv, hlt, hsv2, hid⟩
  · intro g hgn j1 h1 j2 h2 hne hm
    show (upd s.stream_groups g0 g2 g).members j1 ≠ (upd s.stream_groups g0 g2 g).members j2
    have hm' : 0 ≤ (upd s.stream_groups g0 g2 g).members j1 := hm
    by_cases hgg : g = g0
    · subst hgg
      rw [upd_self] at hm' ⊢
      rw [hg2m j1] at hm'
      rw [hg2m j1, hg2m j2]
      by_cases h1k : j1 = k
      · subst h1k
        rw [upd_self] at hm'
        exact absurd hm' (by decide)
      · rw [upd_ne _ _ _ _ h1k] at hm' ⊢
        by_cases h2k : j2 = k
        · subst h2k
          rw [upd_self]
          omega
        · rw [upd_ne _ _ _ _ h2k]
          exact hb g hg j1 h1 j2 h2 hne hm'
    · rw [upd_ne _ _ _ _ hgg] at hm' ⊢
      exact hb g hgn j1 h1 j2 h2 hne hm'
  · intro g hgn
    show (upd s.stream_groups g0 g2 g).member_count
      = (List.range MAX_STREAMS_PER_GROUP).countP
          (fun j => decide (0 ≤ (upd s.stream_groups g0 g2 g).members j))
    by_cases hgg : g = g0
    · subst hgg
      rw [upd_self]
      have hcong : (List.range MAX_STREAMS_PER_GROUP).countP
            (fun j => decide (0 ≤ g2.members j))
          = (List.range MAX_STREAMS_PER_GROUP).countP
            (fun j => decide (0 ≤ upd (s.stream_groups g).members k (-1) j)) := by
        apply List.countP_congr
        intro a ha2
        rw [hg2m a]
      rw [hcong]
      exact hnewcount.symm
    · rw [upd_ne _ _ _ _ hgg]
      exact hc g hgn
  · intro m hmn
    show (upd s.stream_table i e1 m).valid = false → (upd s.stream_table i e1 m).group_id = -1
    by_cases hmi : m = i
    · subst hmi
      rw [upd_self, he1g]
      intro _
      rfl
    · rw [upd_ne _ _ _ _ hmi]
      exact hd m hmn
  · intro m hmn
    show (upd s.stream_table i e1 m).valid = true → 0 ≤ (upd s.stream_table i e1 m).group_id →
      (upd s.stream_table i e1 m).group_id < (MAX_STREAM_GROUPS : Int)
    by_cases hmi : m = i
    · subst hmi
      rw [upd_self, he1g]
      intro _ _
      decide
    · rw [upd_ne _ _ _ _ hmi]
      exact he m hmn
/-- `remove_stream_from_group` preserves the invariant, leaves the stream with
`group_id = -1`, and changes no `valid` flag of the stream table. -/
theorem ginv_remove (s : TransformerState) (i : Nat) (hi : i < STREAM_TABLE_SIZE)
    (h : GroupInv s) :
    GroupInv (remove_stream_from_group s (i : Int)) ∧
    ((remove_stream_from_group s (i : Int)).stream_table i).group_id = -1 ∧
    (∀ m, ((remove_stream_from_group s (i : Int)).stream_table m).valid
        = (s.stream_table m).valid) := by
  have hpost1 : ∀ (x : TransformerStreamEntry), x.group_id = -1 →
      ((upd s.stream_table i x) i).group_id = -1 := by
    intro x hx
    rw [upd_self]
    exact hx
  have hpost2 : ∀ (x : TransformerStreamEntry), x.valid = (s.stream_table i).valid →
      ∀ m, ((upd s.stream_table i x) m).valid = (s.stream_table m).valid := by
    intro x hx m
    by_cases hmi : m = i
    · subst hmi
      rw [upd_self]
      exact hx
    · rw [upd_ne _ _ _ _ hmi]
  simp only [remove_stream_from_group, Int.toNat_ofNat]
  have hrange : ¬ ((i : Int) < 0 ∨ (i : Int) ≥ (STREAM_TABLE_SIZE : Int)) := by
    simp only [STREAM_TABLE_SIZE] at *
    omega
  rw [if_neg hrange]
  by_cases hneg : (s.stream_table i).group_id < 0
  · rw [if_pos (Or.inl hneg)]
    have hnm := notMember_of_gid_neg h hneg
    exact ⟨ginv_upd_stream_gidneg s i _ (by rfl) hnm h, hpost1 _ (by rfl),
      hpost2 _ (by rfl)⟩
  · have hge : 0 ≤ (s.stream_table i).group_id := by omega
    have hvalid : (s.stream_table i).valid = true := by
      cases hvb : (s.stream_table i).valid
      · have hgm := h.2.2.2.1 i hi hvb
        exfalso
        apply hneg
        rw [hgm]
        decide
      · rfl
    have hlt := h.2.2.2.2 i hi hvalid hge
    have hcondF : ¬ ((s.stream_table i).group_id < 0 ∨
        (s.stream_table i).group_id ≥ (MAX_STREAM_GROUPS : Int)) := by
      simp only [MAX_STREAM_GROUPS] at hlt ⊢
      omega
    rw [if_neg hcondF]
    set g0 := (s.stream_table i).group_id.toNat with hg0def
    have hg0lt : g0 < MAX_STREAM_GROUPS := by
      rw [hg0def]
      simp only [MAX_STREAM_GROUPS] at hlt ⊢
      omega
    rcases first_idx_spec MAX_STREAMS_PER_GROUP
        (fun j => (s.stream_groups g0).members j == (i : Int)) with ⟨hnone, hall⟩ |
        ⟨k, hk, hpk, heq⟩
    · rw [hnone]
      simp only [show ¬ ((-1 : Int) ≥ 0) from by decide, if_false]
      have hnm : NotMember s i := by
        intro g hgn j hj hmeq
        by_cases hgg : g = g0
        · subst hgg
          have hne := hall j hj
          rw [beq_eq_false_iff_ne] at hne
          exact hne hmeq
        · have hm0 : 0 ≤ (s.stream_groups g).members j := by
            rw [hmeq]
            exact Int.ofNat_nonneg i
          have hid := (h.1 g hgn j hj hm0).2.2.2
          rw [hmeq] at hid
          simp only [Int.toNat_ofNat] at hid
          exact absurd (by omega : g = g0) hgg
      split_ifs with hz
      · exact ⟨ginv_detach_only s i g0 hg0lt hnm _ _ (fun j => rfl) rfl (Or.inr hz)
          (by rfl) h, hpost1 _ (by rfl), hpost2 _ (by rfl)⟩
      · exact ⟨ginv_detach_only s i g0 hg0lt hnm _ _ (fun j => rfl) rfl (Or.inl rfl)
          (by rfl) h, hpost1 _ (by rfl), hpost2 _ (by rfl)⟩
    · rw [heq]
      simp only [show ((k : Int) ≥ 0) from Int.ofNat_nonneg k, if_true, Int.toNat_ofNat]
      have hmk : (s.stream_groups g0).members k = (i : Int) := by
        simpa using hpk
      have hcpos : 0 < (s.stream_groups g0).member_count := by
        have hcnt := h.2.2.1 g0 hg0lt
        have hdk : decide (0 ≤ (s.stream_groups g0).members k) = true := by
          rw [hmk]
          simp
        have hpos := countP_pos_of_mem MAX_STREAMS_PER_GROUP k
          (fun j => decide (0 ≤ (s.stream_groups g0).members j)) hk hdk
        omega
      rw [if_pos hcpos]
      split_ifs with hz
      · have hz' : (s.stream_groups g0).member_count - 1 = 0 := hz
        exact ⟨ginv_remove_member s i g0 k hg0lt hk hmk _ _ (fun j => rfl)
          (by show (s.stream_groups g0).member_count - 1 + 1
                = (s.stream_groups g0).member_count
              omega)
          (Or.inr hz') (by rfl) h, hpost1 _ (by rfl), hpost2 _ (by rfl)⟩
      · exact ⟨ginv_remove_member s i g0 k hg0lt hk hmk _ _ (fun j => rfl)
          (by show (s.stream_groups g0).member_count - 1 + 1
                = (s.stream_groups g0).member_count
              omega)
          (Or.inl (by rfl)) (by rfl) h, hpost1 _ (by rfl), hpost2 _ (by rfl)⟩
/-- `terminate_stream` preserves the invariant and leaves slot `i` invalid. -/
theorem ginv_terminate (s : TransformerState) (i : Nat) (hi : i < STREAM_TABLE_SIZE)
    (h : GroupInv s) :
    GroupInv (terminate_stream s (i : Int)) ∧
    ((terminate_stream s (i : Int)).stream_table i).valid = false := by
  simp only [terminate_stream, Int.toNat_ofNat]
  have hrange : ¬ ((i : Int) < 0 ∨ (i : Int) ≥ (STREAM_TABLE_SIZE : Int)) := by
    simp only [STREAM_TABLE_SIZE] at *
    omega
  rw [if_neg hrange]
  by_cases hv : (s.stream_table i).valid = true
  · rw [if_neg (not_not_intro hv)]
    have hpostv : ∀ (st : Nat → TransformerStreamEntry) (x : TransformerStreamEntry),
        x.valid = false → ((upd st i x) i).valid = false := by
      intro st x hx
      rw [upd_self]
      exact hx
    have hf1 := sframe_record_pattern s (s.stream_table i)
    have hg1 := groupInv_of_sframe hf1 h
    obtain ⟨hg2, hgid2, _⟩ := ginv_remove (record_pattern s (s.stream_table i)) i hi hg1
    have hf3 := sframe_update_phase
      (remove_stream_from_group (record_pattern s (s.stream_table i)) (i : Int)) true
    have hg3 := groupInv_of_sframe hf3 hg2
    have hgid3 : ((transformer_update_phase
        (remove_stream_from_group (record_pattern s (s.stream_table i)) (i : Int))
        true).stream_table i).group_id = -1 := by
      rw [(hf3.1 i).2]
      exact hgid2
    have hnm3 := notMember_of_gid_neg hg3 (by rw [hgid3]; decide)
    exact ⟨ginv_upd_stream_gidneg _ i _ hgid3 hnm3 hg3, hpostv _ _ (by rfl)⟩
  · rw [if_pos hv]
    simp only [Bool.not_eq_true] at hv
    exact ⟨h, hv⟩
theorem foldl_ginv (f : TransformerState → Nat → TransformerState)
    (hf : ∀ st a, a < STREAM_TABLE_SIZE → GroupInv st → GroupInv (f st a)) :
    ∀ (l : List Nat), (∀ x ∈ l, x < STREAM_TABLE_SIZE) → ∀ st, GroupInv st →
      GroupInv (l.foldl f st) := by
  intro l
  induction l with
  | nil => intro _ st hst; exact hst
  | cons a l ih =>
    intro hmem st hst
    exact ih (fun x hx => hmem x (List.mem_cons_of_mem a hx)) (f st a)
      (hf st a (hmem a (List.mem_cons_self a l)) hst)

theorem ginv_remove_dead (s : TransformerState) (h : GroupInv s) :
    GroupInv (remove_dead_streams s) := by
  simp only [remove_dead_streams]
  refine foldl_ginv _ ?_ (List.range STREAM_TABLE_SIZE)
    (fun x hx => List.mem_range.mp hx) s h
  intro st a ha hst
  change GroupInv (ite _ _ _)
  split_ifs <;> first | exact hst | exact (ginv_terminate st a ha hst).1
/-- `allocate_stream_entry` preserves the invariant and, when it returns a
non-negative index, that index is in range and names an invalid slot. -/
theorem ginv_allocate (s : TransformerState) (h : GroupInv s) :
    GroupInv (allocate_stream_entry s).1 ∧
    (0 ≤ (allocate_stream_entry s).2 →
      (allocate_stream_entry s).2 < (STREAM_TABLE_SIZE : Int) ∧
      ((allocate_stream_entry s).1.stream_table
        (allocate_stream_entry s).2.toNat).valid = false) := by
  simp only [allocate_stream_entry]
  rcases first_idx_spec STREAM_TABLE_SIZE (fun i => !(s.stream_table i).valid) with
    ⟨hneg0, _⟩ | ⟨k, hk, hpk, heq⟩
  · rw [hneg0]
    simp only [show ¬ ((-1 : Int) ≥ 0) from by decide, if_false]
    rcases first_idx_spec STREAM_TABLE_SIZE
        (fun i => !((remove_dead_streams s).stream_table i).valid) with
      ⟨hneg1, _⟩ | ⟨k, hk, hpk, heq⟩
    · rw [hneg1]
      simp only [show ¬ ((-1 : Int) ≥ 0) from by decide, if_false]
      have hsel : select_victim_stream (remove_dead_streams s) = -1 ∨
          ∃ i ∈ List.range STREAM_TABLE_SIZE,
            select_victim_stream (remove_dead_streams s) = (i : Int) :=
        victim_go_range (remove_dead_streams s) (List.range STREAM_TABLE_SIZE) (-1) none
      rcases hsel with hselneg | ⟨i, hi', heq1⟩
      · rw [hselneg]
        simp only [show ¬ ((-1 : Int) ≥ 0) from by decide, if_false]
        exact ⟨ginv_remove_dead s h, fun h0 => absurd h0 (by decide)⟩
      · rw [heq1]
        have hi'' : i < STREAM_TABLE_SIZE := List.mem_range.mp hi'
        simp only [show ((i : Int) ≥ 0) from Int.ofNat_nonneg i, if_true, Int.toNat_ofNat]
        obtain ⟨hg2, hval2⟩ := ginv_terminate (remove_dead_streams s) i hi''
          (ginv_remove_dead s h)
        refine ⟨hg2, fun _ => ⟨?_, hval2⟩⟩
        simp only [STREAM_TABLE_SIZE] at hi'' ⊢
        omega
    · rw [heq]
      simp only [show ((k : Int) ≥ 0) from Int.ofNat_nonneg k, if_true, Int.toNat_ofNat]
      refine ⟨ginv_remove_dead s h, fun _ => ⟨?_, ?_⟩⟩
      · simp only [STREAM_TABLE_SIZE] at hk ⊢
        omega
      · simpa using hpk
  · rw [heq]
    simp only [show ((k : Int) ≥ 0) from Int.ofNat_nonneg k, if_true, Int.toNat_ofNat]
    refine ⟨h, fun _ => ⟨?_, ?_⟩⟩
    · simp only [STREAM_TABLE_SIZE] at hk ⊢
      omega
    · simpa using hpk
/-- `find_or_create_stream_group` preserves the invariant, returns an in-range
index naming a valid group, keeps every stream's `valid` flag, and never adds
a member slot. -/
theorem ginv_focg (s : TransformerState) (dir : StreamDirection) (stride : Int)
    (h : GroupInv s) :
    GroupInv (find_or_create_stream_group s dir stride).1 ∧
    (find_or_create_stream_group s dir stride).2 < MAX_STREAM_GROUPS ∧
    (((find_or_create_stream_group s dir stride).1).stream_groups
      (find_or_create_stream_group s dir stride).2).valid = true ∧
    (∀ m, (((find_or_create_stream_group s dir stride).1).stream_table m).valid
        = (s.stream_table m).valid) ∧
    (∀ i : Nat, NotMember s i → NotMember (find_or_create_stream_group s dir stride).1 i) := by
  obtain ⟨ha, hb, hc, hd, he⟩ := h
  simp only [find_or_create_stream_group, find_stream_group]
  rcases first_idx_spec MAX_STREAM_GROUPS (fun i =>
      (s.stream_groups i).valid && decide ((s.stream_groups i).direction = dir) &&
        ((s.stream_groups i).stride == stride)) with ⟨hneg0, _⟩ | ⟨k, hk, hpk, heq⟩
  · rw [hneg0]
    simp only [show ¬ ((-1 : Int) ≥ 0) from by decide, if_false]
    rcases first_idx_spec MAX_STREAM_GROUPS (fun i => !(s.stream_groups i).valid) with
      ⟨hneg1, hall1⟩ | ⟨k, hk, hpk, heq⟩
    · rw [hneg1]
      simp only [show ¬ ((-1 : Int) ≥ 0) from by decide, if_false]
      have holdest : group_evict_go s.stream_groups (List.range MAX_STREAM_GROUPS) 0 none
          < MAX_STREAM_GROUPS := by
        rcases group_evict_go_range s.stream_groups (List.range MAX_STREAM_GROUPS) 0 none
          with hbz | ⟨i, hi, heqo⟩
        · rw [hbz]
          decide
        · rw [heqo]
          exact List.mem_range.mp hi
      set o := group_evict_go s.stream_groups (List.range MAX_STREAM_GROUPS) 0 none with hodef
      set s1 := clear_group_members s o with hs1def
      obtain ⟨hcg, hcv, hcgid, hcgid2⟩ := clear_members_spec s o
      set FR := fresh_group dir stride s1.current_timestamp with hFRdef
      have hFRm : ∀ j, FR.members j = -1 := fun _ => rfl
      have hnotino : ∀ (mv : Int), 0 ≤ mv → ∀ g, g < MAX_STREAM_GROUPS → g ≠ o →
          (s.stream_table mv.toNat).group_id = (g : Int) →
          ∀ j', j' < MAX_STREAMS_PER_GROUP →
            (s.stream_groups o).members j' ≠ ((mv.toNat : Nat) : Int) := by
        intro mv hmv g hgn hgo hid j' hj' hmeq'
        have hm0' : 0 ≤ (s.stream_groups o).members j' := by
          rw [hmeq']
          exact Int.ofNat_nonneg _
        have hido := (ha o holdest j' hj' hm0').2.2.2
        rw [hmeq'] at hido
        simp only [Int.toNat_ofNat] at hido
        rw [hid] at hido
        exact hgo (by exact_mod_cast hido)
      refine ⟨⟨?_, ?_, ?_, ?_, ?_⟩, holdest, ?_, fun m => hcv m, ?_⟩
      · intro g hgn j hj hm
        show (upd s1.stream_groups o FR g).valid = true ∧
          (upd s1.stream_groups o FR g).members j < (STREAM_TABLE_SIZE : Int) ∧
          (s1.stream_table ((upd s1.stream_groups o FR g).members j).toNat).valid = true ∧
          (s1.stream_table ((upd s1.stream_groups o FR g).members j).toNat).group_id
            = (g : Int)
        have hm' : 0 ≤ (upd s1.stream_groups o FR g).members j := hm
        by_cases hgo : g = o
        · subst hgo
          rw [upd_self, hFRm j] at hm'
          exact absurd hm' (by decide)
        · rw [upd_ne _ _ _ _ hgo] at hm' ⊢
          rw [hcg g] at hm' ⊢
          obtain ⟨hval, hlt, hv, hid⟩ := ha g hgn j hj hm'
          have hgidkeep := hcgid2 ((s.stream_groups g).members j).toNat
            (fun j' hj' => hnotino _ hm' g hgn hgo hid j' hj')
          rw [hcv _, hgidkeep]
          exact ⟨hval, hlt, hv, hid⟩
      · intro g hgn j1 h1 j2 h2 hne hm
        show (upd s1.stream_groups o FR g).members j1 ≠ (upd s1.stream_groups o FR g).members j2
        have hm' : 0 ≤ (upd s1.stream_groups o FR g).members j1 := hm
        by_cases hgo : g = o
        · subst hgo
          rw [upd_self, hFRm j1] at hm'
          exact absurd hm' (by decide)
        · rw [upd_ne _ _ _ _ hgo] at hm' ⊢
          rw [hcg g] at hm' ⊢
          exact hb g hgn j1 h1 j2 h2 hne hm'
      · intro g hgn
        show (upd s1.stream_groups o FR g).member_count
          = (List.range MAX_STREAMS_PER_GROUP).countP
              (fun j => decide (0 ≤ (upd s1.stream_groups o FR g).members j))
        by_cases hgo : g = o
        · subst hgo
          rw [upd_self]
          simp [hFRdef, fresh_group]
        · rw [upd_ne _ _ _ _ hgo]
          have hcong : (List.range MAX_STREAMS_PER_GROUP).countP
                (fun j => decide (0 ≤ (s1.stream_groups g).members j))
              = (List.range MAX_STREAMS_PER_GROUP).countP
                (fun j => decide (0 ≤ (s.stream_groups g).members j)) := by
            apply List.countP_congr
            intro a ha2
            rw [hcg g]
          rw [hcong, hcg g]
          exact hc g hgn
      · intro m hmn
        show (s1.stream_table m).valid = false → (s1.stream_table m).group_id = -1
        intro hinv
        rcases hcgid m with h' | h'
        · rw [h']
          exact hd m hmn ((hcv m) ▸ hinv)
        · exact h'
      · intro m hmn
        show (s1.stream_table m).valid = true → 0 ≤ (s1.stream_table m).group_id →
          (s1.stream_table m).group_id < (MAX_STREAM_GROUPS : Int)
        intro hv0 hge0
        rcases hcgid m with h' | h'
        · rw [h'] at hge0 ⊢
          exact he m hmn ((hcv m) ▸ hv0) hge0
        · rw [h'] at hge0
          exact absurd hge0 (by decide)
      · show (upd s1.stream_groups o FR o).valid = true
        rw [upd_self]
        rfl
      · intro i hnm
        refine notMember_of_subset (s := s) ?_ hnm
        intro g j
        show (upd s1.stream_groups o FR g).members j = (s.stream_groups g).members j ∨
          (upd s1.stream_groups o FR g).members j = -1
        by_cases hgo : g = o
        · subst hgo
          rw [upd_self, hFRm j]
          exact Or.inr rfl
        · rw [upd_ne _ _ _ _ hgo, hcg g]
          exact Or.inl rfl
    · rw [heq]
      simp only [show ((k : Int) ≥ 0) from Int.ofNat_nonneg k, if_true, Int.toNat_ofNat]
      refine ⟨ginv_reset_group s k dir stride s.current_timestamp ⟨ha, hb, hc, hd, he⟩, hk,
        ?_, fun m => by first | exact rfl | exact trivial, ?_⟩
      · show (upd s.stream_groups k (fresh_group dir stride s.current_timestamp) k).valid = true
        rw [upd_self]
        rfl
      · intro i hnm
        refine notMember_of_subset (s := s) ?_ hnm
        intro g j
        show (upd s.stream_groups k (fresh_group dir stride s.current_timestamp) g).members j
            = (s.stream_groups g).members j ∨
          (upd s.stream_groups k (fresh_group dir stride s.current_timestamp) g).members j = -1
        by_cases hgo : g = k
        · subst hgo
          rw [upd_self]
          exact Or.inr rfl
        · rw [upd_ne _ _ _ _ hgo]
          exact Or.inl rfl
  · rw [heq]
    simp only [show ((k : Int) ≥ 0) from Int.ofNat_nonneg k, if_true, Int.toNat_ofNat]
    simp only [Bool.and_eq_true, beq_iff_eq, decide_eq_true_eq] at hpk
    refine ⟨groupInv_of_sframe (sframe_upd_group s k _ (by rfl) (by rfl) (fun _ => by rfl))
      ⟨ha, hb, hc, hd, he⟩, hk, ?_, fun m => by first | exact rfl | exact trivial, ?_⟩
    · show (upd s.stream_groups k
        { s.stream_groups k with last_seen_timestamp := s.current_timestamp } k).valid = true
      rw [upd_self]
      exact hpk.1.1
    · intro i hnm
      refine notMember_of_subset (s := s) ?_ hnm
      intro g j
      show (upd s.stream_groups k
          { s.stream_groups k with last_seen_timestamp := s.current_timestamp } g).members j
          = (s.stream_groups g).members j ∨
        (upd s.stream_groups k
          { s.stream_groups k with last_seen_timestamp := s.current_timestamp } g).members j
          = -1
      by_cases hgo : g = k
      · subst hgo
        rw [upd_self]
        exact Or.inl rfl
      · rw [upd_ne _ _ _ _ hgo]
        exact Or.inl rfl
/-- Core of `create_stream` after allocation: installing a fresh valid entry
in an invalid slot, grouping it and prefetching preserves the invariant. -/
theorem ginv_create_aux (env : GenEnv) (qi : Nat) (s0 : TransformerState) (i : Nat)
    (e1 : TransformerStreamEntry)
    (hiN : i < STREAM_TABLE_SIZE)
    (hgid : e1.group_id = (s0.stream_table i).group_id)
    (hval : e1.valid = true)
    (hinv : (s0.stream_table i).valid = false)
    (h : GroupInv s0) :
    GroupInv (generate_prefetches env
      (add_stream_to_group
        (find_or_create_stream_group { s0 with stream_table := upd s0.stream_table i e1 }
          e1.direction e1.stride).1 (i : Int)
        ((find_or_create_stream_group { s0 with stream_table := upd s0.stream_table i e1 }
          e1.direction e1.stride).2 : Int)) i qi).1 := by
  have hgid0 : (s0.stream_table i).group_id = -1 := h.2.2.2.1 i hiN hinv
  have hgidneg : e1.group_id = -1 := by rw [hgid, hgid0]
  have hnm0 : NotMember s0 i := notMember_of_invalid h hinv
  have hg1 := ginv_upd_stream_gidneg s0 i e1 hgidneg hnm0 h
  obtain ⟨hg2, hlt2, hgv2, hvalpres, hnmpres⟩ :=
    ginv_focg { s0 with stream_table := upd s0.stream_table i e1 } e1.direction e1.stride hg1
  refine groupInv_of_sframe (sframe_generate env _ i qi)
    (ginv_add _ i _ hiN hlt2 hgv2 ?_ (hnmpres i hnm0) hg2)
  rw [hvalpres i]
  show ((upd s0.stream_table i e1) i).valid = true
  rw [upd_self]
  exact hval

/-- `create_stream` preserves the invariant. -/
theorem ginv_create (env : GenEnv) (s : TransformerState) (trained : TrainingEntry)
    (qi : Nat) (h : GroupInv s) : GroupInv (create_stream env s trained qi).1 := by
  simp only [create_stream]
  obtain ⟨hga, hpost⟩ := ginv_allocate s h
  by_cases hneg : (allocate_stream_entry s).2 < 0
  · rw [if_pos hneg]
    exact hga
  · rw [if_neg hneg]
    have h0 : 0 ≤ (allocate_stream_entry s).2 := by omega
    obtain ⟨hlt, hinv⟩ := hpost h0
    have hiN : (allocate_stream_entry s).2.toNat < STREAM_TABLE_SIZE := by
      simp only [STREAM_TABLE_SIZE] at hlt ⊢
      omega
    exact ginv_create_aux env qi (allocate_stream_entry s).1
      (allocate_stream_entry s).2.toNat _ hiN (by rfl) (by rfl) hinv hga
/-- Core of `reactivate_stream`: updating a valid entry without touching
`valid`/`group_id`, optionally grouping it when ungrouped, then prefetching,
preserves the invariant. -/
theorem ginv_reactivate_aux (env : GenEnv) (s : TransformerState) (idx : Nat) (qi : Nat)
    (e2 : TransformerStreamEntry)
    (hidx : idx < STREAM_TABLE_SIZE)
    (hval : e2.valid = (s.stream_table idx).valid)
    (hgid : e2.group_id = (s.stream_table idx).group_id)
    (hv : (s.stream_table idx).valid = true)
    (h : GroupInv s) :
    GroupInv (generate_prefetches env
      (if e2.group_id < 0 then
        add_stream_to_group
          (find_or_create_stream_group { s with stream_table := upd s.stream_table idx e2 }
            e2.direction e2.stride).1 (idx : Int)
          ((find_or_create_stream_group { s with stream_table := upd s.stream_table idx e2 }
            e2.direction e2.stride).2 : Int)
       else { s with stream_table := upd s.stream_table idx e2 }) idx qi).1 := by
  have hg1 := groupInv_of_sframe (sframe_upd_stream s idx e2 hval hgid) h
  by_cases hneg : e2.group_id < 0
  · rw [if_pos hneg]
    have hgid1 : (({ s with stream_table := upd s.stream_table idx e2 } :
        TransformerState).stream_table idx).group_id < 0 := by
      show ((upd s.stream_table idx e2) idx).group_id < 0
      rw [upd_self]
      exact hneg
    have hnm1 := notMember_of_gid_neg hg1 hgid1
    obtain ⟨hg2, hlt2, hgv2, hvalpres, hnmpres⟩ :=
      ginv_focg { s with stream_table := upd s.stream_table idx e2 } e2.direction e2.stride hg1
    refine groupInv_of_sframe (sframe_generate env _ idx qi)
      (ginv_add _ idx _ hidx hlt2 hgv2 ?_ (hnmpres idx hnm1) hg2)
    rw [hvalpres idx]
    show ((upd s.stream_table idx e2) idx).valid = true
    rw [upd_self, hval]
    exact hv
  · rw [if_neg hneg]
    exact groupInv_of_sframe (sframe_generate env _ idx qi) hg1

/-- `reactivate_stream` preserves the invariant on valid in-range streams. -/
theorem ginv_reactivate (env : GenEnv) (s : TransformerState) (idx : Nat)
    (trigger_block : Int) (qi : Nat) (hidx : idx < STREAM_TABLE_SIZE)
    (hv : (s.stream_table idx).valid = true) (h : GroupInv s) :
    GroupInv (reactivate_stream env s idx trigger_block qi).1 := by
  simp only [reactivate_stream]
  exact ginv_reactivate_aux env s idx qi _ hidx (by split_ifs <;> rfl)
    (by split_ifs <;> rfl) hv h

/-- `try_relaunch_stream` preserves the invariant. -/
theorem ginv_relaunch (env : GenEnv) (s : TransformerState) (miss_block : Int)
    (dir : StreamDirection) (stride : Int) (qi : Nat) (h : GroupInv s) :
    GroupInv (try_relaunch_stream env s miss_block dir stride qi).1 := by
  simp only [try_relaunch_stream, find_matching_inactive_stream]
  rcases first_idx_spec STREAM_TABLE_SIZE (fun i =>
      let e := s.stream_table i
      e.valid && !e.active && decide (e.direction = dir) && (e.stride == stride) &&
        decide (|compute_region_base e.stream_start_block - compute_region_base miss_block|
          ≤ (REGION_SIZE_BLOCKS : Int) * 2)) with ⟨hneg0, _⟩ | ⟨k, hk, hpk, heq⟩
  · rw [hneg0]
    simp only [show ¬ ((-1 : Int) ≥ 0) from by decide, if_false]
    exact h
  · rw [heq]
    simp only [show ((k : Int) ≥ 0) from Int.ofNat_nonneg k, if_true, Int.toNat_ofNat]
    simp only [Bool.and_eq_true] at hpk
    exact ginv_reactivate env s k miss_block qi hk hpk.1.1.1.1 h
/-- Training-confirmation tail of `prefetcher_cache_operate` preserves the
invariant. -/
theorem ginv_operate_rest2 (env : GenEnv) (mi qi t : Nat) (mb : Int)
    (sE : TransformerState) (hE : GroupInv sE) :
    GroupInv (
      let s := update_training_entry sE t mb
      let trained := s.training_table t
      let ready := trained.miss_count ≥ CONFIRMATION_THRESHOLD ∨
        (trained.miss_count ≥ 2 ∧ can_fast_track_training trained = true)
      if ready ∧ trained.direction ≠ .UNKNOWN ∧ trained.stride ≥ 1 then
        let rl := try_relaunch_stream env s mb trained.direction trained.stride qi
        let cr := if rl.2.2 then (rl.1, rl.2.1) else create_stream env rl.1 trained rl.2.1
        let s2 := cr.1
        let tt := s2.training_table t
        let s3 := { s2 with
          training_table := upd s2.training_table t { tt with valid := false } }
        (⟨s3, cr.2, mi⟩ : TransformerOpOut)
      else ⟨s, qi, mi⟩).st := by
  have hgF := groupInv_of_sframe (sframe_update_training sE t mb) hE
  simp only []
  split_ifs with h1 h2
  · exact groupInv_transport _ _ (fun i => ⟨rfl, rfl⟩) (fun g => ⟨rfl, rfl, fun _ => rfl⟩)
      (ginv_relaunch env _ mb _ _ qi hgF)
  · exact groupInv_transport _ _ (fun i => ⟨rfl, rfl⟩) (fun g => ⟨rfl, rfl, fun _ => rfl⟩)
      (ginv_create env _ _ _ (ginv_relaunch env _ mb _ _ qi hgF))
  · exact hgF

/-- Miss-path tail of `prefetcher_cache_operate` preserves the invariant. -/
theorem ginv_operate_rest (env : GenEnv) (addr mi qi : Nat) (sD : TransformerState)
    (hD : GroupInv sD) :
    GroupInv (
      let miss_block : Int := ((addr >>> LOG2_BLOCK_SIZE : Nat) : Int)
      let region_base := compute_region_base miss_block
      let si := find_stream_for_block sD miss_block
      if si ≥ 0 then
        let i := si.toNat
        let e := sD.stream_table i
        let e := { e with
          last_trigger_timestamp := sD.current_timestamp,
          accesses_in_window := e.accesses_in_window + 1 }
        let e := if e.active then e
          else { e with active := true, reactivation_count := e.reactivation_count + 1 }
        let s := { sD with stream_table := upd sD.stream_table i e }
        let s := reinforce_stream_confidence s si
        let r := generate_prefetches env s i qi
        (⟨r.1, r.2, mi⟩ : TransformerOpOut)
      else
        let ti := find_training_entry sD region_base
        let at0 := if ti < 0 then allocate_training_entry sD region_base else (sD, ti.toNat)
        let s := at0.1
        let t := at0.2
        let s := update_training_entry s t miss_block
        let trained := s.training_table t
        let ready := trained.miss_count ≥ CONFIRMATION_THRESHOLD ∨
          (trained.miss_count ≥ 2 ∧ can_fast_track_training trained = true)
        if ready ∧ trained.direction ≠ .UNKNOWN ∧ trained.stride ≥ 1 then
          let rl := try_relaunch_stream env s miss_block trained.direction trained.stride qi
          let cr := if rl.2.2 then (rl.1, rl.2.1) else create_stream env rl.1 trained rl.2.1
          let s2 := cr.1
          let tt := s2.training_table t
          let s3 := { s2 with
            training_table := upd s2.training_table t { tt with valid := false } }
          (⟨s3, cr.2, mi⟩ : TransformerOpOut)
        else ⟨s, qi, mi⟩).st := by
  simp only []
  by_cases hsi : find_stream_for_block sD ((addr >>> LOG2_BLOCK_SIZE : Nat) : Int) ≥ 0
  · rw [if_pos hsi]
    exact groupInv_of_sframe
      (sframe_trans (sframe_upd_stream sD _ _ (by split_ifs <;> rfl) (by split_ifs <;> rfl))
        (sframe_trans (sframe_reinforce _ _) (sframe_generate env _ _ qi))) hD
  · rw [if_neg hsi]
    by_cases hti : find_training_entry sD
        (compute_region_base ((addr >>> LOG2_BLOCK_SIZE : Nat) : Int)) < 0
    · rw [if_pos hti]
      exact ginv_operate_rest2 env mi qi _ _ _
        (groupInv_of_sframe (sframe_allocate_training sD _) hD)
    · rw [if_neg hti]
      exact ginv_operate_rest2 env mi qi _ _ _ hD

set_option maxRecDepth 8000 in
/-- The transformer's `prefetcher_cache_operate` preserves the invariant. -/
theorem ginv_operate (env : GenEnv) (addr ip : Nat) (ch up : Bool) (mi qi : Nat)
    (s : TransformerState) (h : GroupInv s) :
    GroupInv (transformer_cache_operate env addr ip ch up mi qi s).st := by
  simp only [transformer_cache_operate]
  by_cases hch : ch = true
  · rw [if_pos hch]
    exact h
  · rw [if_neg hch]
    have hgA : GroupInv { s with current_timestamp := s.current_timestamp + 1 } :=
      groupInv_transport _ _ (fun i => ⟨rfl, rfl⟩) (fun g => ⟨rfl, rfl, fun _ => rfl⟩) h
    have hgB := groupInv_of_sframe
      (sframe_update_phase { s with current_timestamp := s.current_timestamp + 1 } false) hgA
    have hgC : GroupInv { transformer_update_phase
        { s with current_timestamp := s.current_timestamp + 1 } false with
      cleanup_counter := (transformer_update_phase
        { s with current_timestamp := s.current_timestamp + 1 } false).cleanup_counter + 1 } :=
      groupInv_transport _ _ (fun i => ⟨rfl, rfl⟩) (fun g => ⟨rfl, rfl, fun _ => rfl⟩) hgB
    by_cases hcl : ({ transformer_update_phase
        { s with current_timestamp := s.current_timestamp + 1 } false with
      cleanup_counter := (transformer_update_phase
        { s with current_timestamp := s.current_timestamp + 1 } false).cleanup_counter + 1 } :
        TransformerState).cleanup_counter ≥ CLEANUP_INTERVAL
    · rw [if_pos hcl]
      exact ginv_operate_rest env addr mi qi _
        (groupInv_transport _ _ (fun i => ⟨rfl, rfl⟩) (fun g => ⟨rfl, rfl, fun _ => rfl⟩)
          (ginv_remove_dead _ hgC))
    · rw [if_neg hcl]
      exact ginv_operate_rest env addr mi qi _ hgC

/-- The transformer's `prefetcher_cycle_operate` preserves the invariant. -/
theorem ginv_cycle (env : GenEnv) (s : TransformerState) (qi : Nat) (h : GroupInv s) :
    GroupInv (transformer_cycle_operate env s qi).1 := by
  simp only [transformer_cycle_operate]
  suffices hgen : ∀ (l : List Nat) (p : TransformerState × Nat), GroupInv p.1 →
      GroupInv ((l.foldl (fun r i =>
        if (r.1.stream_table i).valid ∧ (r.1.stream_table i).active then
          generate_prefetches env r.1 i r.2
        else r) p)).1 by
    exact hgen (List.range STREAM_TABLE_SIZE) (s, qi) h
  intro l
  induction l with
  | nil => intro p hp; exact hp
  | cons a l ih =>
    intro p hp
    refine ih _ ?_
    change GroupInv (Prod.fst (ite _ _ _))
    split_ifs with hc
    · exact groupInv_of_sframe (sframe_generate env p.1 a p.2) hp
    · exact hp
/-- States of the transformer prefetcher reachable from `prefetcher_initialize`
through any sequence of host calls. -/
inductive TReach : TransformerState → Prop
  | init : TReach transformer_init
  | operate : ∀ (env : GenEnv) (addr ip : Nat) (ch up : Bool) (mi qi : Nat)
      (s : TransformerState), TReach s →
      TReach (transformer_cache_operate env addr ip ch up mi qi s).st
  | fill : ∀ (addr : Nat) (st wy : Int) (pf : Bool) (ea mi : Nat)
      (s : TransformerState), TReach s →
      TReach (transformer_cache_fill addr st wy pf ea mi s).1
  | cycle : ∀ (env : GenEnv) (qi : Nat) (s : TransformerState), TReach s →
      TReach (transformer_cycle_operate env s qi).1

theorem treach_groupInv {s : TransformerState} (h : TReach s) : GroupInv s := by
  induction h with
  | init => exact groupInv_init
  | operate env addr ip ch up mi qi s _ ih => exact ginv_operate env addr ip ch up mi qi s ih
  | fill addr st wy pf ea mi s _ ih => exact ih
  | cycle env qi s _ ih => exact ginv_cycle env s qi ih
/-- C4 (amended): in every reachable transformer state, each group's
`member_count` equals the number of non-negative slots in its member list, and
every valid stream with `group_id >= 0` has `group_id < MAX_STREAM_GROUPS` and
either appears exactly once in the member list of the (then valid) group it
references and in no other group's list, or appears in no group's member list
at all (the full-group attachment path). -/
theorem C4_amended_group_invariant (s : TransformerState) (hs : TReach s) :
    (∀ g, g < MAX_STREAM_GROUPS →
      (s.stream_groups g).member_count
        = (List.range MAX_STREAMS_PER_GROUP).countP
            (fun j => decide (0 ≤ (s.stream_groups g).members j))) ∧
    (∀ i, i < STREAM_TABLE_SIZE → (s.stream_table i).valid = true →
      0 ≤ (s.stream_table i).group_id →
      (s.stream_table i).group_id < (MAX_STREAM_GROUPS : Int) ∧
      (((s.stream_groups (s.stream_table i).group_id.toNat).valid = true ∧
        (List.range MAX_STREAMS_PER_GROUP).countP
          (fun j => (s.stream_groups (s.stream_table i).group_id.toNat).members j
            == (i : Int)) = 1 ∧
        (∀ g, g < MAX_STREAM_GROUPS → g ≠ (s.stream_table i).group_id.toNat →
          ∀ j, j < MAX_STREAMS_PER_GROUP → (s.stream_groups g).members j ≠ (i : Int))) ∨
       (∀ g, g < MAX_STREAM_GROUPS → ∀ j, j < MAX_STREAMS_PER_GROUP →
         (s.stream_groups g).members j ≠ (i : Int)))) := by
  obtain ⟨ha, hb, hc, hd, he⟩ := treach_groupInv hs
  refine ⟨hc, ?_⟩
  intro i hi hv hge
  have hlt := he i hi hv hge
  refine ⟨hlt, ?_⟩
  set g0 := (s.stream_table i).group_id.toNat with hg0def
  have hg0lt : g0 < MAX_STREAM_GROUPS := by
    rw [hg0def]
    simp only [MAX_STREAM_GROUPS] at hlt ⊢
    omega
  have hgid0 : (s.stream_table i).group_id = (g0 : Int) := by
    rw [hg0def]
    omega
  have hcrossgen : ∀ g, g < MAX_STREAM_GROUPS → g ≠ g0 →
      ∀ j, j < MAX_STREAMS_PER_GROUP → (s.stream_groups g).members j ≠ (i : Int) := by
    intro g hg hgne j hj hmeq
    have hm0' : 0 ≤ (s.stream_groups g).members j := by
      rw [hmeq]
      exact Int.ofNat_nonneg i
    have hid := (ha g hg j hj hm0').2.2.2
    rw [hmeq] at hid
    simp only [Int.toNat_ofNat] at hid
    rw [hgid0] at hid
    exact hgne (by exact_mod_cast hid.symm)
  by_cases hex : ∃ j, j < MAX_STREAMS_PER_GROUP ∧ (s.stream_groups g0).members j = (i : Int)
  · obtain ⟨j0, hj0, hmj0⟩ := hex
    have hm0 : 0 ≤ (s.stream_groups g0).members j0 := by
      rw [hmj0]
      exact Int.ofNat_nonneg i
    refine Or.inl ⟨(ha g0 hg0lt j0 hj0 hm0).1, ?_, hcrossgen⟩
    have hle : (List.range MAX_STREAMS_PER_GROUP).countP
        (fun j => (s.stream_groups g0).members j == (i : Int)) ≤ 1 := by
      apply countP_le_one_of_unique
      intro j1 hj1 j2 hj2 hp1 hp2
      simp only [beq_iff_eq] at hp1 hp2
      by_contra hne
      have hm1 : 0 ≤ (s.stream_groups g0).members j1 := by
        rw [hp1]
        exact Int.ofNat_nonneg i
      have hneq := hb g0 hg0lt j1 hj1 j2 hj2 hne hm1
      rw [hp1, hp2] at hneq
      exact hneq rfl
    have hge1 := countP_pos_of_mem MAX_STREAMS_PER_GROUP j0
      (fun j => (s.stream_groups g0).members j == (i : Int)) hj0 (by simpa using hmj0)
    omega
  · refine Or.inr ?_
    intro g hg j hj hmeq
    by_cases hgg : g = g0
    · subst hgg
      exact hex ⟨j, hj, hmeq⟩
    · exact hcrossgen g hg hgg j hj hmeq

/-- Witness: the amended C4 invariant instantiated at the initialized
transformer state. -/
theorem C4_amended_group_invariant_witness :
    (∀ g, g < MAX_STREAM_GROUPS →
      (transformer_init.stream_groups g).member_count
        = (List.range MAX_STREAMS_PER_GROUP).countP
            (fun j => decide (0 ≤ (transformer_init.stream_groups g).members j))) ∧
    (∀ i, i < STREAM_TABLE_SIZE → (transformer_init.stream_table i).valid = true →
      0 ≤ (transformer_init.stream_table i).group_id →
      (transformer_init.stream_table i).group_id < (MAX_STREAM_GROUPS : Int) ∧
      (((transformer_init.stream_groups
          (transformer_init.stream_table i).group_id.toNat).valid = true ∧
        (List.range MAX_STREAMS_PER_GROUP).countP
          (fun j => (transformer_init.stream_groups
              (transformer_init.stream_table i).group_id.toNat).members j
            == (i : Int)) = 1 ∧
        (∀ g, g < MAX_STREAM_GROUPS →
          g ≠ (transformer_init.stream_table i).group_id.toNat →
          ∀ j, j < MAX_STREAMS_PER_GROUP →
            (transformer_init.stream_groups g).members j ≠ (i : Int))) ∨
       (∀ g, g < MAX_STREAM_GROUPS → ∀ j, j < MAX_STREAMS_PER_GROUP →
         (transformer_init.stream_groups g).members j ≠ (i : Int)))) :=
  C4_amended_group_invariant transformer_init TReach.init
